import Mathlib

/-!
Verification development for the AQWWebLogger bridge server
(`src/unnamed/part_001`, the Node.js server `server.js`).

The server's per-connection protocol layer is shallowly embedded here:
JavaScript values handled by the server are modelled by `JVal` (JSON
values as produced by `JSON.parse`: JS arrays and floating-point
specials such as `NaN` do not occur in the statuses the claims concern
and are outside the modelled value space; numbers are modelled as
integers), the mutable global maps of the server become fields of
`ServerState`, and every broadcast / socket write becomes an `Event`.
Wall-clock readings (`Date.now()`, `toLocaleTimeString`,
`toISOString`) are passed in as explicit parameters.
-/

namespace AQW

/-- JSON-like JavaScript values as handled by the server.  `undefined` is the
result of an absent property lookup (JS `undefined`). -/
inductive JVal where
  | null
  | undefined
  | bool (b : Bool)
  | num (n : Int)
  | str (s : String)
  | obj (fields : List (String × JVal))

/-- JS `typeof` (note `typeof null == "object"`). -/
def typeofJ : JVal → String
  | .null => "object"
  | .undefined => "undefined"
  | .bool _ => "boolean"
  | .num _ => "number"
  | .str _ => "string"
  | .obj _ => "object"

/-- JS strict equality `===` on modelled values.  Two object values compare
by reference in JS; the value model has no references, so the object case
is `false` (sound for every use below: a reference-equal pair is also
structurally equal, so `deepCompare`'s recursive branch recovers the
same overall result). -/
def jsStrictEq : JVal → JVal → Bool
  | .null, .null => true
  | .undefined, .undefined => true
  | .bool a, .bool b => a == b
  | .num a, .num b => a == b
  | .str a, .str b => a == b
  | _, _ => false

/-- JS loose `x == null`, true exactly for `null` and `undefined`. -/
def isNullish : JVal → Bool
  | .null => true
  | .undefined => true
  | _ => false

/-- JS truthiness. -/
def jsTruthy : JVal → Bool
  | .null => false
  | .undefined => false
  | .bool b => b
  | .num n => n != 0
  | .str s => s ≠ ""
  | .obj _ => true

/-- JS string coercion as used in template literals and `String.replace`
(object values print as `[object Object]`). -/
def jsCoerceString : JVal → String
  | .null => "null"
  | .undefined => "undefined"
  | .bool true => "true"
  | .bool false => "false"
  | .num n => toString n
  | .str s => s
  | .obj _ => "[object Object]"

/-- Property lookup on a key/value list; absent keys yield `undefined`.
JS objects never hold duplicate keys, so first-match lookup is exact. -/
def lookupKV : List (String × JVal) → String → JVal
  | [], _ => .undefined
  | (k', v) :: rest, k => if k' = k then v else lookupKV rest k

/-- `Array.prototype.includes` over an object's key list. -/
def hasKey : List (String × JVal) → String → Bool
  | [], _ => false
  | (k', _) :: rest, k => k' = k || hasKey rest k

/-- Property assignment `o[k] = v`: overwrite in place if present
(keeping the key's position), else append. -/
def setKVList : List (String × JVal) → String → JVal → List (String × JVal)
  | [], k, v => [(k, v)]
  | (k', v') :: rest, k, v =>
    if k' = k then (k, v) :: rest else (k', v') :: setKVList rest k v

/-- Property access `o[k]` (total model; primitive receivers yield
`undefined`: exotic string properties such as `"length"` are not
modelled and do not occur on the status field names used below). -/
def jsIndex : JVal → String → JVal
  | .obj kvs, k => lookupKV kvs k
  | _, _ => .undefined

/-- Optional chaining `o?.[k]`. -/
def jsOptIndex (v : JVal) (k : String) : JVal :=
  if isNullish v then .undefined else jsIndex v k

/-- `Object.keys` (empty for primitives, as in JS). -/
def keysOf : JVal → List String
  | .obj kvs => kvs.map Prod.fst
  | _ => []

/-- JS `x || {}`. -/
def jsOrEmpty (v : JVal) : JVal :=
  if jsTruthy v then v else .obj []

/-- Object spread `{ ...v }`.  On an object it copies the own keys in
order, which in the (reference-free, duplicate-free) value model is the
identity on the field list; spreading a primitive yields `{}` (the
exotic index-spread of strings is outside the model; every use below is
guarded to objects). -/
def jsShallowCopy : JVal → JVal
  | .obj kvs => .obj kvs
  | _ => .obj []

/-- Spread-with-override `{ ...base, k: v }` as used by the legacy
translation (same guard note as `jsShallowCopy`). -/
def jsSetKey : JVal → String → JVal → JVal
  | .obj kvs, k, v => .obj (setKVList kvs k v)
  | _, k, v => .obj [(k, v)]

mutual
/-- `deepCompare(obj1, obj2)` from the server: the recursive
structural-equality check used for state diffing. -/
def deepCompare (o1 o2 : JVal) : Bool :=
  if jsStrictEq o1 o2 then true
  else if isNullish o1 || isNullish o2 then false
  else if typeofJ o1 ≠ typeofJ o2 then false
  else
    match o1, o2 with
    | .obj kvs1, .obj kvs2 =>
      if kvs1.length ≠ kvs2.length then false
      else deepCompareFields kvs1 kvs2
    | a, b => jsStrictEq a b

/-- The `for (let key of keys1)` loop body of `deepCompare`: every key of
the first object must be a key of the second with deep-equal value.
(The source reads `obj1[key]` for `key` drawn from `Object.keys(obj1)`,
which on the duplicate-free objects JS produces is exactly the pair's
own value, so we iterate the pairs directly.) -/
def deepCompareFields : List (String × JVal) → List (String × JVal) → Bool
  | [], _ => true
  | (k, v) :: rest, kvs2 =>
    if !(hasKey kvs2 k) then false
    else if !(deepCompare v (lookupKV kvs2 k)) then false
    else deepCompareFields rest kvs2
end

/-- Key list without duplicates (`Boolean` valued). -/
def nodupKeysB : List String → Bool
  | [] => true
  | k :: rest => !(rest.contains k) && nodupKeysB rest

mutual
/-- Well-formedness of a modelled JS value: every object level has
duplicate-free keys, as is true of every object `JSON.parse` or an
object literal can produce. -/
def wfJ : JVal → Bool
  | .obj kvs => nodupKeysB (kvs.map Prod.fst) && wfFields kvs
  | _ => true

/-- Well-formedness of all values in a field list. -/
def wfFields : List (String × JVal) → Bool
  | [] => true
  | (_, v) :: rest => wfJ v && wfFields rest
end

/-- Iteration of `new Set([...])` with an accumulator of already-seen
elements: keeps the first occurrence of each element, in order. -/
def dedupFirstAux (seen : List String) : List String → List String
  | [] => []
  | k :: rest =>
    if seen.contains k then dedupFirstAux seen rest
    else k :: dedupFirstAux (k :: seen) rest

/-- Iteration order of `new Set([...])`: first-insertion order with
duplicates removed. -/
def dedupFirst (l : List String) : List String := dedupFirstAux [] l

/-! ### Character/string primitives (kernel-computable models of the JS
string methods the server uses) -/

/-- Whitespace for `String.prototype.trim` (the ASCII cases that occur
on this wire protocol). -/
def isWhiteChar (c : Char) : Bool :=
  c = ' ' || c = '\t' || c = '\n' || c = '\r'

/-- Drop leading whitespace. -/
def trimLeftChars : List Char → List Char
  | [] => []
  | c :: rest => if isWhiteChar c then trimLeftChars rest else c :: rest

/-- JS `s.trim()`. -/
def jsTrim (s : String) : String :=
  ⟨(trimLeftChars (trimLeftChars s.data.reverse).reverse)⟩

/-- ASCII lower-casing, as needed for the `"true"` comparisons of the
legacy dialect. -/
def lowerChar (c : Char) : Char :=
  if 'A' ≤ c && c ≤ 'Z' then Char.ofNat (c.toNat + 32) else c

/-- JS `s.toLowerCase()`. -/
def jsToLowerCase (s : String) : String := ⟨s.data.map lowerChar⟩

/-- JS `s.startsWith(p)`. -/
def strStartsWith (s p : String) : Bool := p.data.isPrefixOf s.data

/-- JS `s.substring(n)` (drop the first `n` characters). -/
def strDropChars (s : String) (n : Nat) : String := ⟨s.data.drop n⟩

/-- JS `s.split(sep)` for a single-character separator. -/
def splitChar (sep : Char) : List Char → List (List Char)
  | [] => [[]]
  | c :: rest =>
    let r := splitChar sep rest
    if c = sep then [] :: r
    else
      match r with
      | h :: t => (c :: h) :: t
      | [] => [[c]]

/-- `message.split(':')[1]` (the index is always present at its uses,
which are guarded by a `':'`-containing literal being a line prefix). -/
def splitColonSecond (s : String) : String :=
  ⟨(splitChar ':' s.data).getD 1 []⟩

/-- First-occurrence replacement on character lists: the semantics of JS
`s.replace(pat, rep)` with a string pattern (the `$`-escape expansion
of the replacement string is not modelled; the theorems using this
restrict to `$`-free replacements). -/
def replaceFirstList (pat rep : List Char) : List Char → List Char
  | [] => if pat.isPrefixOf ([] : List Char) then rep else []
  | c :: rest =>
    if pat.isPrefixOf (c :: rest) then rep ++ (c :: rest).drop pat.length
    else c :: replaceFirstList pat rep rest

/-- JS `s.replace(pat, rep)` with a plain-string pattern. -/
def jsReplaceFirst (s pat rep : String) : String :=
  ⟨replaceFirstList pat.data rep.data s.data⟩

/-- `Array.prototype.join(', ')`. -/
def joinCommaSpace : List String → String
  | [] => ""
  | [s] => s
  | s :: rest => s ++ ", " ++ joinCommaSpace rest

/-! ### Credential Verifier
`generateChallenge` / `computeHandshakeResponse` / `isValidHandshakeResponse`
(part_001 lines 114-130).  The HMAC-SHA256 primitive from `crypto` is an
abstract keyed hash; it enters as an explicit parameter `hmacHex`
(key → message → lowercase hex digest), exactly as
`crypto.createHmac('sha256', secret).update(challenge).digest('hex')`
consumes it. -/

/-- Hex digit value of a character (`0-9`, `a-f`, `A-F`), else `none`. -/
def hexVal? (c : Char) : Option Nat :=
  let n := c.toNat
  if 48 ≤ n ∧ n ≤ 57 then some (n - 48)
  else if 97 ≤ n ∧ n ≤ 102 then some (n - 87)
  else if 65 ≤ n ∧ n ≤ 70 then some (n - 55)
  else none

/-- `Buffer.from(s, 'hex')`: decode pairs of hex digits into bytes,
truncating at the first invalid pair or dangling digit (Node's
behaviour). -/
def hexDecodeList : List Char → List Nat
  | c1 :: c2 :: rest =>
    match hexVal? c1, hexVal? c2 with
    | some hi, some lo => (16 * hi + lo) :: hexDecodeList rest
    | _, _ => []
  | _ => []

/-- `Buffer.from(s, 'hex')` on a string. -/
def bufferFromHex (s : String) : List Nat := hexDecodeList s.data

/-- Lowercase hex digit character for a nibble. -/
def hexDigitChar (n : Nat) : Char :=
  if n < 10 then Char.ofNat (48 + n) else Char.ofNat (87 + n)

/-- Lowercase hex encoding of a byte list (the inverse direction of
`bufferFromHex`, used to state the single-bit-mutation property). -/
def hexEncodeList : List Nat → List Char
  | [] => []
  | b :: rest => hexDigitChar (b / 16) :: hexDigitChar (b % 16) :: hexEncodeList rest

/-- Hex encoding as a string. -/
def hexEncodeStr (bs : List Nat) : String := ⟨hexEncodeList bs⟩

/-- `crypto.timingSafeEqual(a, b)`: throws (`Except.error`) when the
buffer lengths differ, otherwise compares by accumulating the XOR of
every byte pair — all positions are visited, there is no early exit. -/
def timingSafeEqual (a b : List Nat) : Except String Bool :=
  if a.length ≠ b.length then
    .error "Input buffers must have the same byte length"
  else
    .ok (((List.zipWith (fun x y => x ^^^ y) a b).foldl (fun acc d => acc ||| d) 0) == 0)

/-- `computeHandshakeResponse(challenge, secret)` (lines 118-122):
HMAC-SHA256 of the challenge keyed by the secret, hex encoded. -/
def computeHandshakeResponse (hmacHex : String → String → String)
    (challenge secret : String) : String :=
  hmacHex secret challenge

/-- `isValidHandshakeResponse(challenge, response, secret)`
(lines 124-130).  The `Except` layer records that
`crypto.timingSafeEqual` throws on a byte-length mismatch and that the
exception propagates out of this function uncaught. -/
def isValidHandshakeResponse (hmacHex : String → String → String)
    (challenge response secret : String) : Except String Bool :=
  let expectedResponse := computeHandshakeResponse hmacHex challenge secret
  timingSafeEqual (bufferFromHex response) (bufferFromHex expectedResponse)

/-- Flip bit `j` of byte `i` of a byte buffer. -/
def flipBitByte (bs : List Nat) (i j : Nat) : List Nat :=
  bs.set i (bs.getD i 0 ^^^ 2 ^ j)

/-! ### Server state and events -/

/-- `MAX_LOGS` (line 88). -/
def MAX_LOGS : Nat := 1000

/-- `HANDSHAKE_TIMEOUT` in milliseconds (line 93). -/
def HANDSHAKE_TIMEOUT : Nat := 10000

/-- The `setInterval` period of both background sweeps, milliseconds
(lines 782 and 797). -/
def SWEEP_PERIOD : Nat := 5000

/-- One entry of `pendingHandshakes` (lines 657-661). -/
structure Handshake where
  challenge : String
  timestamp : Nat
  authenticated : Bool
deriving DecidableEq

/-- One entry of `clientUsernameStatus` (lines 834-838); `checker` is
whether the interval task is currently scheduled. -/
structure UsernameStatus where
  hasUsername : Bool
  requestSent : Bool
  checker : Bool
deriving DecidableEq

/-- Everything the server broadcasts to browsers
(`broadcastToBrowsers`) or writes to a client TCP socket, in emission
order. -/
inductive Event where
  | log (id msg : String)
  | masterLog (msg : String)
  | clientConnect (id : String) (name : JVal)
  | clientDisconnect (id : String)
  | updateTabName (id : String) (name : JVal)
  | updateStatus (id field : String) (value : JVal)
  | statusUpdateJson (id : String) (status : JVal) (changes : List (String × JVal))
      (timestamp : JVal) (serverTime : String)
  | clearMasterLog
  | sockWrite (id payload : String)

/-- The server's global mutable maps (lines 96-106).  Each JS map keyed
by client id becomes a function; deletion stores the empty/`none`
default.  `destroyedSockets` records which connections' sockets have had
`socket.destroy()` called. -/
structure ServerState where
  tcpClients : String → Bool
  clientLogs : String → List String
  clientNames : String → Option JVal
  clientStatus : String → Option (List (String × JVal))
  clientLastHeartbeat : String → Option Nat
  masterLog : List String
  pendingHandshakes : String → Option Handshake
  clientStateCache : String → Option JVal
  clientUsernameStatus : String → Option UsernameStatus
  destroyedSockets : String → Bool

/-- Point update of a string-keyed map. -/
def upd {α : Type} (m : String → α) (k : String) (v : α) : String → α :=
  fun x => if x = k then v else m x

/-- The shared append-then-trim step of both log rings: `push` followed
by `shift` when the length exceeds `MAX_LOGS`. -/
def ringPush (l : List String) (x : String) : List String :=
  if (l ++ [x]).length > MAX_LOGS then (l ++ [x]).tail else l ++ [x]

/-- `socket.destroy()` for the given client's socket (destruction only;
the `'close'` handler that Node fires afterwards is
`socketCloseHandler` below). -/
def destroySocket (cid : String) (st : ServerState) : ServerState :=
  { st with destroyedSockets := upd st.destroyedSockets cid true }

/-! ### Helpers (lines 599-653) -/

/-- `addClientLog(id, msg)` (lines 607-614): append to the client's
bounded ring and broadcast a `log` event. -/
def addClientLog (cid msg : String) (st : ServerState) : ServerState × List Event :=
  ({ st with clientLogs := upd st.clientLogs cid (ringPush (st.clientLogs cid) msg) },
   [Event.log cid msg])

/-- `addMasterLog(msg, clientId = null)` (lines 616-628): when a client
id is supplied and its display name is known (both truthy), the first
occurrence of the id in the message is replaced by the name; the entry
is timestamp-prefixed, pushed into the bounded master ring and broadcast.
`tsStr` stands for the `toLocaleTimeString` reading; the fire-and-forget
`fs.appendFile` is I/O outside the model.  This helper is the
name-substitution step (lines 618-620). -/
def masterLogSubstName (st : ServerState) : Option String → String → String
  | none, msg => msg
  | some cid, msg =>
    if cid = "" then msg
    else
      match st.clientNames cid with
      | none => msg
      | some nm =>
        if jsTruthy nm then jsReplaceFirst msg cid (jsCoerceString nm) else msg

/-- `addMasterLog(msg, clientId = null)` continued: timestamp-prefix the
(possibly name-substituted) message, push it into the bounded master
ring and broadcast it. -/
def addMasterLog (tsStr msg : String) (clientId : Option String) (st : ServerState) :
    ServerState × List Event :=
  let logEntry := "[" ++ tsStr ++ "] " ++ masterLogSubstName st clientId msg
  ({ st with masterLog := ringPush st.masterLog logEntry },
   [Event.masterLog logEntry])

/-- `updateStatus(id, field, value)` (lines 635-639). -/
def updateStatusField (cid field : String) (value : JVal) (st : ServerState) :
    ServerState × List Event :=
  let cur :=
    match st.clientStatus cid with
    | some s => s
    | none => [("loaded", .bool false), ("logged", .bool false),
               ("scriptRunning", .bool false), ("loadedScript", .str "")]
  ({ st with clientStatus := upd st.clientStatus cid (some (setKVList cur field value)) },
   [Event.updateStatus cid field value])

/-- `stopUsernameChecker(clientId)` (lines 864-871): cancel the interval
when it is scheduled; this logs (and therefore broadcasts) into the
client's ring. -/
def stopUsernameChecker (cid : String) (st : ServerState) : ServerState × List Event :=
  match st.clientUsernameStatus cid with
  | some u =>
    if u.checker then
      let st1 := { st with
        clientUsernameStatus := upd st.clientUsernameStatus cid (some { u with checker := false }) }
      addClientLog cid "[Username checker stopped]" st1
    else (st, [])
  | none => (st, [])

/-- `cleanupClient(id)` (lines 641-653): remove every per-client map
entry, then stop the username checker (whose own log call re-creates the
client's log ring when the checker was still scheduled — faithful to the
source), then drop the username-status entry. -/
def cleanupClient (cid : String) (st : ServerState) : ServerState × List Event :=
  let st1 := { st with
    tcpClients := upd st.tcpClients cid false
    clientLogs := upd st.clientLogs cid []
    clientNames := upd st.clientNames cid none
    clientStatus := upd st.clientStatus cid none
    clientLastHeartbeat := upd st.clientLastHeartbeat cid none
    pendingHandshakes := upd st.pendingHandshakes cid none
    clientStateCache := upd st.clientStateCache cid none }
  let r2 := stopUsernameChecker cid st1
  ({ r2.1 with clientUsernameStatus := upd r2.1.clientUsernameStatus cid none }, r2.2)

/-- `isClientAuthenticated(clientId)` (lines 711-714). -/
def isClientAuthenticated (st : ServerState) (cid : String) : Bool :=
  match st.pendingHandshakes cid with
  | some h => h.authenticated
  | none => false

/-! ### Username poller (lines 804-898) -/

/-- `sendUsernameRequest(clientId)` (lines 805-825): refuse when the
socket is gone or the client unauthenticated; otherwise write the JSON
request line and log.  (The `catch` branch guards a synchronous
`socket.write` throw, which the socket model does not produce.) -/
def sendUsernameRequest (tsStr cid : String) (st : ServerState) :
    ServerState × List Event × Bool :=
  if !(st.tcpClients cid) || !(isClientAuthenticated st cid) then (st, [], false)
  else
    let payload :=
      "\x7b\x22type\x22:\x22username_request\x22,\x22protocolVersion\x22:\x221.0\x22,\x22timestamp\x22:\x22"
        ++ tsStr ++ "\x22\x7d"
    let r1 := addClientLog cid "[Server requested username from client]" st
    (r1.1, Event.sockWrite cid (payload ++ "\n") :: r1.2, true)

/-- `startUsernameChecker(clientId)` (lines 827-862): initialise the
status record and schedule the interval, unless one is already
scheduled.  The interval body itself is `usernameCheckerTick`. -/
def startUsernameChecker (cid : String) (st : ServerState) : ServerState × List Event :=
  let alreadyChecking :=
    match st.clientUsernameStatus cid with
    | some u => u.checker
    | none => false
  if alreadyChecking then (st, [])
  else
    let st1 := { st with
      clientUsernameStatus :=
        upd st.clientUsernameStatus cid
          (some { hasUsername := false, requestSent := false, checker := true }) }
    addClientLog cid "[Started username monitoring]" st1

/-- One firing of the username checker interval (the callback at lines
841-859).  With a username in hand it cancels itself; with no request
yet sent it sends one and records that; otherwise — request sent, no
username yet — it does nothing.  (`none` is unreachable: the interval is
cancelled before the map entry is deleted.) -/
def usernameCheckerTick (tsStr cid : String) (st : ServerState) : ServerState × List Event :=
  match st.clientUsernameStatus cid with
  | none => (st, [])
  | some status =>
    if status.hasUsername then
      let st1 := { st with
        clientUsernameStatus := upd st.clientUsernameStatus cid (some { status with checker := false }) }
      addClientLog cid "[Username checker stopped - username received]" st1
    else if !status.requestSent then
      let r1 := sendUsernameRequest tsStr cid st
      if r1.2.2 then
        let status1 :=
          match r1.1.clientUsernameStatus cid with
          | some u => u
          | none => status
        let st2 := { r1.1 with
          clientUsernameStatus := upd r1.1.clientUsernameStatus cid (some { status1 with requestSent := true }) }
        let r3 := addClientLog cid "[Username request sent to client]" st2
        (r3.1, r1.2.1 ++ r3.2)
      else (r1.1, r1.2.1)
    else (st, [])

/-- `handleUsernameResponse(clientId, username)` (lines 873-898): an
empty/missing username is logged only; a truthy one becomes the new
display name, sets `hasUsername`, and is announced when it differs from
the previous name. -/
def handleUsernameResponse (cid : String) (username : JVal) (st : ServerState) :
    ServerState × List Event :=
  if !(jsTruthy username) then
    addClientLog cid "[Username response received but empty]" st
  else
    let oldName := (st.clientNames cid).getD .undefined
    let st1 := { st with clientNames := upd st.clientNames cid (some username) }
    let st2 :=
      match st1.clientUsernameStatus cid with
      | some u =>
        { st1 with clientUsernameStatus := upd st1.clientUsernameStatus cid (some { u with hasUsername := true }) }
      | none => st1
    let r3 := addClientLog cid ("[Username received]: " ++ jsCoerceString username) st2
    if !(jsStrictEq oldName username) then
      let r4 :=
        addClientLog cid
          ("[Tab name updated]: " ++ jsCoerceString oldName ++ " -> " ++ jsCoerceString username) r3.1
      (r4.1, r3.2 ++ [Event.updateTabName cid username] ++ r4.2)
    else (r3.1, r3.2)

/-! ### State diff & broadcast engine (lines 132-238) -/

/-- `getChangedFields(oldState, newState)` (lines 154-165): over the
union of both key sets (in `Set` insertion order), collect the keys
whose values are not `deepCompare`-equal, mapped to the new value;
`null` (`none`) when nothing changed. -/
def getChangedFields (oldState newState : JVal) : Option (List (String × JVal)) :=
  let allKeys := dedupFirst (keysOf (jsOrEmpty oldState) ++ keysOf (jsOrEmpty newState))
  let changedKeys := allKeys.filter (fun k => !(deepCompare (jsOptIndex oldState k) (jsOptIndex newState k)))
  let changes := changedKeys.map (fun k => (k, jsIndex newState k))
  if 0 < changes.length then some changes else none

/-- One of the four `if (changes.x !== undefined) updateStatus(...)`
lines (222-225) of `handleStatusUpdate`. -/
def updateStatusIfChanged (cid field : String) (changes : List (String × JVal))
    (st : ServerState) : ServerState × List Event :=
  if !(jsStrictEq (lookupKV changes field) .undefined) then
    updateStatusField cid field (lookupKV changes field) st
  else (st, [])

/-- `handleStatusUpdate(clientId, newStatus, timestamp)` (lines
203-238): log-and-return on missing data or on an empty diff against the
cached snapshot; otherwise replace the cache with a shallow copy of the
new status, refresh the four well-known fields, broadcast one
`status_update_json` event carrying the full object plus the changed
keys, and log.  `serverTs` stands for `new Date().toISOString()`.  This
helper is the `changes !== null` tail of the function (lines 218-237). -/
def handleStatusUpdateChanged (cid : String) (newStatus tsField : JVal) (serverTs : String)
    (changes : List (String × JVal)) (st : ServerState) : ServerState × List Event :=
  let st1 := { st with clientStateCache := upd st.clientStateCache cid (some (jsShallowCopy newStatus)) }
  let r2 := updateStatusIfChanged cid "loaded" changes st1
  let r3 := updateStatusIfChanged cid "logged" changes r2.1
  let r4 := updateStatusIfChanged cid "scriptRunning" changes r3.1
  let r5 := updateStatusIfChanged cid "loadedScript" changes r4.1
  let ej := [Event.statusUpdateJson cid newStatus changes
              (if jsTruthy tsField then tsField else .str serverTs) serverTs]
  let r6 :=
    addClientLog cid
      ("[Status updated - Changes: " ++ joinCommaSpace (changes.map Prod.fst) ++ "]") r5.1
  (r6.1, r2.2 ++ r3.2 ++ r4.2 ++ r5.2 ++ ej ++ r6.2)

/-- `handleStatusUpdate` continued: the dispatch between "no data",
"no changes" and the changed case above.  (`clientStateCache[clientId]
|| {}` is inlined into the diff call.) -/
def handleStatusUpdate (cid : String) (newStatus tsField : JVal) (serverTs : String)
    (st : ServerState) : ServerState × List Event :=
  if !(jsTruthy newStatus) then
    addClientLog cid "[Status update - no status data]" st
  else
    match getChangedFields (jsOrEmpty ((st.clientStateCache cid).getD .undefined)) newStatus with
    | none => addClientLog cid "[Status update - no changes detected]" st
    | some changes => handleStatusUpdateChanged cid newStatus tsField serverTs changes st

/-! ### Protocol Normalizer (lines 167-300) -/

/-- The default status object used when no state is cached (line 243). -/
def defaultStatusObj : JVal :=
  .obj [("loaded", .bool false), ("logged", .bool false),
        ("scriptRunning", .bool false), ("loadedScript", .str "")]

/-- `convertLegacyToJson(clientId, message)` (lines 241-300): translate
one legacy tagged-text line into the canonical JSON shape, carrying the
client's cached status forward.  `tsStr` stands for the
`new Date().toISOString()` taken at entry. -/
def convertLegacyToJson (tsStr cid message : String) (st : ServerState) : JVal :=
  let currentStatus :=
    match st.clientStateCache cid with
    | some v => if jsTruthy v then v else defaultStatusObj
    | none => defaultStatusObj
  if strStartsWith message "$ClientName:" then
    .obj [("type", .str "status_update"), ("protocolVersion", .str "1.0"),
          ("timestamp", .str tsStr),
          ("clientName", .str (jsTrim (strDropChars message 12))),
          ("status", currentStatus)]
  else if strStartsWith message "$IsLoaded:" then
    let loaded := jsToLowerCase (jsTrim (splitColonSecond message)) = "true"
    .obj [("type", .str "status_update"), ("protocolVersion", .str "1.0"),
          ("timestamp", .str tsStr),
          ("status", jsSetKey currentStatus "loaded" (.bool loaded))]
  else if strStartsWith message "$IsLogged:" then
    let logged := jsToLowerCase (jsTrim (splitColonSecond message)) = "true"
    .obj [("type", .str "status_update"), ("protocolVersion", .str "1.0"),
          ("timestamp", .str tsStr),
          ("status", jsSetKey currentStatus "logged" (.bool logged))]
  else if strStartsWith message "$IsScriptRunning:" then
    let scriptRunning := jsToLowerCase (jsTrim (splitColonSecond message)) = "true"
    .obj [("type", .str "status_update"), ("protocolVersion", .str "1.0"),
          ("timestamp", .str tsStr),
          ("status", jsSetKey currentStatus "scriptRunning" (.bool scriptRunning))]
  else if strStartsWith message "$LoadedScript:" then
    .obj [("type", .str "status_update"), ("protocolVersion", .str "1.0"),
          ("timestamp", .str tsStr),
          ("status", jsSetKey currentStatus "loadedScript" (.str (jsTrim (strDropChars message 14))))]
  else if message = "$Heartbeat" then
    .obj [("type", .str "heartbeat"), ("protocolVersion", .str "1.0"),
          ("timestamp", .str tsStr)]
  else
    .obj [("type", .str "log"), ("protocolVersion", .str "1.0"),
          ("timestamp", .str tsStr), ("message", .str message)]

/-- `processJsonMessage(clientId, jsonData)` (lines 168-200): pick up a
client-name change, then dispatch on the `type` tag; unknown types
degrade to a log entry.  `now` stands for `Date.now()` and `serverTs`
for `new Date().toISOString()`. -/
def processJsonMessage (now : Nat) (serverTs cid : String) (jsonData : JVal)
    (st : ServerState) : ServerState × List Event :=
  let type := jsIndex jsonData "type"
  let timestamp := jsIndex jsonData "timestamp"
  let clientName := jsIndex jsonData "clientName"
  let status := jsIndex jsonData "status"
  let message := jsIndex jsonData "message"
  let r1 :=
    if jsTruthy clientName && !(jsStrictEq clientName ((st.clientNames cid).getD .undefined)) then
      (({ st with clientNames := upd st.clientNames cid (some clientName) } : ServerState),
       [Event.updateTabName cid clientName])
    else (st, ([] : List Event))
  if jsStrictEq type (.str "status_update") then
    let r2 := handleStatusUpdate cid status timestamp serverTs r1.1
    (r2.1, r1.2 ++ r2.2)
  else if jsStrictEq type (.str "heartbeat") then
    ({ r1.1 with clientLastHeartbeat := upd r1.1.clientLastHeartbeat cid (some now) }, r1.2)
  else if jsStrictEq type (.str "username_response") then
    let r2 := handleUsernameResponse cid (jsIndex jsonData "username") r1.1
    (r2.1, r1.2 ++ r2.2)
  else if jsStrictEq type (.str "log") then
    if jsTruthy message then
      let r2 := addClientLog cid (jsCoerceString message) r1.1
      (r2.1, r1.2 ++ r2.2)
    else (r1.1, r1.2)
  else
    let r2 := addClientLog cid ("[Unknown JSON message type]: " ++ jsCoerceString type) r1.1
    (r2.1, r1.2 ++ r2.2)

/-! ### Handshake state machine (lines 655-714) and connection handlers
(lines 717-797) -/

/-- `startHandshake(socket, clientId)` (lines 655-666, the synchronous
part): record the pending handshake, send the challenge and master-log
it.  The `setTimeout` body it registers is `handshakeTimeoutCallback`. -/
def startHandshake (tsStr : String) (now : Nat) (challenge cid : String)
    (st : ServerState) : ServerState × List Event :=
  let st1 := { st with
    pendingHandshakes :=
      upd st.pendingHandshakes cid
        (some { challenge := challenge, timestamp := now, authenticated := false }) }
  let e1 := [Event.sockWrite cid ("$HandshakeChallenge:" ++ challenge ++ "\n")]
  let r2 := addMasterLog tsStr ("Handshake challenge sent to " ++ cid) (some cid) st1
  (r2.1, e1 ++ r2.2)

/-- The `setTimeout` callback registered by `startHandshake` (lines
668-675), which fires `HANDSHAKE_TIMEOUT` ms after connect: a still
pending, still unauthenticated record is evicted — destroy the socket,
clean up, publish `client_disconnect`. -/
def handshakeTimeoutCallback (tsStr cid : String) (st : ServerState) :
    ServerState × List Event :=
  match st.pendingHandshakes cid with
  | some h =>
    if !h.authenticated then
      let r1 := addMasterLog tsStr ("Handshake timeout for " ++ cid) (some cid) st
      let st2 := destroySocket cid r1.1
      let r3 := cleanupClient cid st2
      (r3.1, r1.2 ++ r3.2 ++ [Event.clientDisconnect cid])
    else (st, [])
  | none => (st, [])

/-- `processHandshakeResponse(socket, clientId, response)` (lines
678-709).  The `Except` layer propagates the uncaught throw of
`crypto.timingSafeEqual` on a byte-length mismatch. -/
def processHandshakeResponse (hmacHex : String → String → String) (secret : String)
    (now : Nat) (tsStr cid response : String) (st : ServerState) :
    Except String (ServerState × List Event × Bool) :=
  match st.pendingHandshakes cid with
  | none =>
    let r1 := addMasterLog tsStr ("Unexpected handshake response from " ++ cid) (some cid) st
    .ok (destroySocket cid r1.1, r1.2, false)
  | some handshake =>
    if now - handshake.timestamp > HANDSHAKE_TIMEOUT then
      let r1 := addMasterLog tsStr ("Handshake response too late from " ++ cid) (some cid) st
      let st2 := destroySocket cid r1.1
      let r3 := cleanupClient cid st2
      .ok (r3.1, r1.2 ++ r3.2 ++ [Event.clientDisconnect cid], false)
    else
      match isValidHandshakeResponse hmacHex handshake.challenge response secret with
      | .error e => .error e
      | .ok true =>
        let st1 := { st with
          pendingHandshakes := upd st.pendingHandshakes cid (some { handshake with authenticated := true }) }
        let e1 := [Event.sockWrite cid "$HandshakeSuccess\n"]
        let r2 := addMasterLog tsStr ("Handshake successful for " ++ cid) (some cid) st1
        let r3 := startUsernameChecker cid r2.1
        .ok (r3.1, e1 ++ r2.2 ++ r3.2, true)
      | .ok false =>
        let r1 := addMasterLog tsStr ("Handshake failed for " ++ cid ++ " - invalid response") (some cid) st
        let st2 := destroySocket cid r1.1
        let r3 := cleanupClient cid st2
        .ok (r3.1, r1.2 ++ r3.2 ++ [Event.clientDisconnect cid], false)

/-- Where the `'data'` handler sent one trimmed, non-empty line. -/
inductive Route where
  | handshake
  | rejected
  | normalized
deriving DecidableEq

/-- The per-line body of the TCP `'data'` handler (lines 733-755): a
`$HandshakeResponse:` line — authenticated or not — goes to handshake
processing; any other line from an unauthenticated client is dropped
with a rejection log; otherwise the line enters the Protocol Normalizer
(strict JSON parse, modelled by the `parseJson` parameter since
`JSON.parse` is a runtime primitive, with legacy translation as the
fallback). -/
def handleLine (parseJson : String → Option JVal) (hmacHex : String → String → String)
    (secret : String) (now : Nat) (tsStr cid msg : String) (st : ServerState) :
    Except String (ServerState × List Event × Route) :=
  if strStartsWith msg "$HandshakeResponse:" then
    let response := jsTrim (strDropChars msg 19)
    match processHandshakeResponse hmacHex secret now tsStr cid response st with
    | .error e => .error e
    | .ok pr => .ok (pr.1, pr.2.1, .handshake)
  else if !(isClientAuthenticated st cid) then
    let r1 := addClientLog cid ("[Unauthenticated message rejected]: " ++ msg) st
    .ok (r1.1, r1.2, .rejected)
  else
    match parseJson msg with
    | some jsonData =>
      let r1 := processJsonMessage now tsStr cid jsonData st
      .ok (r1.1, r1.2, .normalized)
    | none =>
      let r1 := processJsonMessage now tsStr cid (convertLegacyToJson tsStr cid msg st) st
      .ok (r1.1, r1.2, .normalized)

/-- The socket `'close'` handler (lines 759-764), which Node also fires
after `socket.destroy()`: log, master-log, publish `client_disconnect`,
clean up. -/
def socketCloseHandler (tsStr cid : String) (st : ServerState) : ServerState × List Event :=
  let r1 :=
    addClientLog cid
      ("[Client " ++ jsCoerceString ((st.clientNames cid).getD .undefined) ++ " disconnected]") st
  let r2 := addMasterLog tsStr ("Client disconnected: " ++ cid) (some cid) r1.1
  let r3 := cleanupClient cid r2.1
  (r3.1, r1.2 ++ r2.2 ++ [Event.clientDisconnect cid] ++ r3.2)

/-- The body of the handshake-cleanup sweep (lines 785-797) for one id
of `Object.keys(pendingHandshakes)`: an unauthenticated record past its
deadline is evicted. -/
def handshakeSweepStep (now : Nat) (cid : String) (st : ServerState) :
    ServerState × List Event :=
  match st.pendingHandshakes cid with
  | none => (st, [])
  | some handshake =>
    if !handshake.authenticated && now - handshake.timestamp > HANDSHAKE_TIMEOUT then
      let st1 := if st.tcpClients cid then destroySocket cid st else st
      let r2 := cleanupClient cid st1
      (r2.1, r2.2 ++ [Event.clientDisconnect cid])
    else (st, [])

/-! ### Observation helpers and concrete fixtures for the theorems -/

/-- Number of `client_disconnect` events for a given client id. -/
def countClientDisconnects (cid : String) (evs : List Event) : Nat :=
  evs.countP (fun e => match e with
    | .clientDisconnect i => i = cid
    | _ => false)

/-- Number of `status_update_json` broadcasts for a given client id. -/
def countStatusJson (cid : String) (evs : List Event) : Nat :=
  evs.countP (fun e => match e with
    | .statusUpdateJson i _ _ _ _ => i = cid
    | _ => false)

/-- Number of socket writes to a given client (used to count username
requests issued by the poller). -/
def countSockWrites (cid : String) (evs : List Event) : Nat :=
  evs.countP (fun e => match e with
    | .sockWrite i _ => i = cid
    | _ => false)

/-- Number of `update_tab_name` broadcasts for a given client id. -/
def countTabUpdates (cid : String) (evs : List Event) : Nat :=
  evs.countP (fun e => match e with
    | .updateTabName i _ => i = cid
    | _ => false)

/-- Deliver a list of `log`-type messages for one client in order
(repeated `addClientLog` calls, keeping only the state). -/
def applyClientLogs (cid : String) (msgs : List String) (st : ServerState) : ServerState :=
  msgs.foldl (fun s m => (addClientLog cid m s).1) st

/-- A server with no connections (the maps as initialised at lines
96-106). -/
def emptyState : ServerState where
  tcpClients := fun _ => false
  clientLogs := fun _ => []
  clientNames := fun _ => none
  clientStatus := fun _ => none
  clientLastHeartbeat := fun _ => none
  masterLog := []
  pendingHandshakes := fun _ => none
  clientStateCache := fun _ => none
  clientUsernameStatus := fun _ => none
  destroyedSockets := fun _ => false

/-- The sample client id used by the concrete fixtures. -/
def cid0 : String := "1.2.3.4:5"

/-- Fixture: a connection whose handshake already succeeded. -/
def stAuthed : ServerState :=
  { emptyState with
    tcpClients := fun x => x = cid0
    pendingHandshakes := fun x =>
      if x = cid0 then some { challenge := "c0ffee", timestamp := 0, authenticated := true }
      else none }

/-- Fixture: a connection still awaiting its handshake response. -/
def stPending : ServerState :=
  { emptyState with
    tcpClients := fun x => x = cid0
    clientNames := fun x => if x = cid0 then some (.str cid0) else none
    pendingHandshakes := fun x =>
      if x = cid0 then some { challenge := "c0ffee", timestamp := 0, authenticated := false }
      else none }

/-- Fixture: an authenticated connection whose username poller has
already sent its one request and is still waiting. -/
def stPolling : ServerState :=
  { stAuthed with
    clientUsernameStatus := fun x =>
      if x = cid0 then some { hasUsername := false, requestSent := true, checker := true }
      else none }

/-- Fixture: a client with a known display name. -/
def stNamed : ServerState :=
  { emptyState with
    clientNames := fun x => if x = cid0 then some (.str "Alice") else none }

/-- The default status field list, as a fixture. -/
def defKvs : List (String × JVal) :=
  [("loaded", .bool false), ("logged", .bool false),
   ("scriptRunning", .bool false), ("loadedScript", .str "")]

/-- A status differing from `defKvs` on `loaded` and `loadedScript`. -/
def newKvs : List (String × JVal) :=
  [("loaded", .bool true), ("logged", .bool false),
   ("scriptRunning", .bool false), ("loadedScript", .str "Farm")]

/-- Fixture: an authenticated client whose status cache holds the
default status object. -/
def stCached : ServerState :=
  { stAuthed with
    clientStateCache := fun x => if x = cid0 then some (.obj defKvs) else none }

/-- A fixed 64-hex-character digest standing in for a concrete
HMAC-SHA256 output in the closed witnesses. -/
def hexA64 : String :=
  "aaaaaaaaaaaaaaaaaaaaaaaaaaaaaaaaaaaaaaaaaaaaaaaaaaaaaaaaaaaaaaaa"

/-- A constant keyed-hash used to instantiate `hmacHex` in closed
witnesses. -/
def constHmac : String → String → String := fun _ _ => hexA64

/-! ## Ring-buffer lemmas -/

theorem ringPush_length_le (l : List String) (x : String) (h : l.length ≤ MAX_LOGS) :
    (ringPush l x).length ≤ MAX_LOGS := by
  unfold ringPush
  split
  · simp only [List.length_tail, List.length_append, List.length_singleton]
    omega
  · rename_i hle
    simp only [List.length_append, List.length_singleton] at hle ⊢
    omega

theorem ringPush_getLast (l : List String) (x : String) :
    (ringPush l x).getLast? = some x := by
  unfold ringPush
  split
  · rename_i hgt
    cases l with
    | nil =>
      simp only [List.nil_append, List.length_singleton, MAX_LOGS] at hgt
      omega
    | cons a t =>
      simp only [List.cons_append, List.tail_cons]
      exact List.getLast?_concat _
  · exact List.getLast?_concat _

theorem ringPush_full (l : List String) (x : String) (h : l.length = MAX_LOGS) :
    ringPush l x = l.tail ++ [x] := by
  unfold ringPush
  rw [if_pos]
  · cases l with
    | nil => simp [MAX_LOGS] at h
    | cons a t => simp
  · simp only [List.length_append, List.length_singleton]
    omega

theorem foldl_ringPush_fill (msgs : List String) :
    ∀ l : List String, l.length + msgs.length ≤ MAX_LOGS →
      msgs.foldl ringPush l = l ++ msgs := by
  induction msgs with
  | nil => intro l _; simp
  | cons m ms ih =>
    intro l h
    simp only [List.length_cons] at h
    have hpush : ringPush l m = l ++ [m] := by
      unfold ringPush
      rw [if_neg]
      simp only [List.length_append, List.length_singleton]
      omega
    simp only [List.foldl_cons, hpush]
    rw [ih (l ++ [m]) (by simp; omega)]
    simp

theorem applyClientLogs_logs (cid : String) (msgs : List String) :
    ∀ st : ServerState, (applyClientLogs cid msgs st).clientLogs cid =
      msgs.foldl ringPush (st.clientLogs cid) := by
  induction msgs with
  | nil => intro st; rfl
  | cons m ms ih =>
    intro st
    show (applyClientLogs cid ms (addClientLog cid m st).1).clientLogs cid = _
    rw [ih]
    simp [addClientLog, upd]

/-- C8: per-client log rings and the master log never exceed 1000
entries after an append; appending to a full buffer evicts the oldest
entry and keeps the newest; and appending 1001 lines to one client from
empty leaves exactly the last 1000 (the first-appended line evicted). -/
theorem c8_log_bounding :
    (∀ (st : ServerState) (cid msg : String),
      ((st.clientLogs cid).length ≤ MAX_LOGS →
        ((addClientLog cid msg st).1.clientLogs cid).length ≤ MAX_LOGS) ∧
      ((addClientLog cid msg st).1.clientLogs cid).getLast? = some msg ∧
      ((st.clientLogs cid).length = MAX_LOGS →
        (addClientLog cid msg st).1.clientLogs cid = (st.clientLogs cid).tail ++ [msg])) ∧
    (∀ (st : ServerState) (tsStr msg : String) (ocid : Option String),
      (st.masterLog.length ≤ MAX_LOGS →
        (addMasterLog tsStr msg ocid st).1.masterLog.length ≤ MAX_LOGS) ∧
      ∃ entry, (addMasterLog tsStr msg ocid st).1.masterLog.getLast? = some entry ∧
        (st.masterLog.length = MAX_LOGS →
          (addMasterLog tsStr msg ocid st).1.masterLog = st.masterLog.tail ++ [entry])) ∧
    (∀ (st : ServerState) (cid : String) (msgs : List String),
      msgs.length = MAX_LOGS + 1 → st.clientLogs cid = [] →
      (applyClientLogs cid msgs st).clientLogs cid = msgs.tail ∧
      ((applyClientLogs cid msgs st).clientLogs cid).length = MAX_LOGS) := by
  refine ⟨?_, ?_, ?_⟩
  · intro st cid msg
    refine ⟨?_, ?_, ?_⟩
    · intro h
      simpa [addClientLog, upd] using ringPush_length_le (st.clientLogs cid) msg h
    · simpa [addClientLog, upd] using ringPush_getLast (st.clientLogs cid) msg
    · intro h
      simpa [addClientLog, upd] using ringPush_full (st.clientLogs cid) msg h
  · intro st tsStr msg ocid
    constructor
    · intro h
      simpa [addMasterLog] using ringPush_length_le st.masterLog _ h
    · have hex : ∃ e, (addMasterLog tsStr msg ocid st).1.masterLog = ringPush st.masterLog e :=
        ⟨_, rfl⟩
      obtain ⟨e, he⟩ := hex
      refine ⟨e, ?_, ?_⟩
      · rw [he]; exact ringPush_getLast _ _
      · intro h; rw [he, ringPush_full _ _ h]
  · intro st cid msgs hlen hempty
    have hmsgs : msgs ≠ [] := by
      intro hcon; rw [hcon] at hlen; simp at hlen
    have hdecomp : msgs.dropLast ++ [msgs.getLast hmsgs] = msgs :=
      List.dropLast_append_getLast hmsgs
    have hdl : msgs.dropLast.length = MAX_LOGS := by
      simp [List.length_dropLast, hlen]
    have hfill : msgs.dropLast.foldl ringPush ([] : List String) = msgs.dropLast := by
      simpa using foldl_ringPush_fill msgs.dropLast [] (by simp [hdl])
    have hdlne : msgs.dropLast ≠ [] := by
      intro hcon
      rw [hcon] at hdl
      simp [MAX_LOGS] at hdl
    have hfold : msgs.foldl ringPush ([] : List String) = msgs.tail := by
      conv_lhs => rw [← hdecomp]
      rw [List.foldl_append, hfill]
      simp only [List.foldl_cons, List.foldl_nil]
      rw [ringPush_full _ _ hdl]
      conv_rhs => rw [← hdecomp]
      cases hm : msgs.dropLast with
      | nil => exact absurd hm hdlne
      | cons a t => simp
    constructor
    · rw [applyClientLogs_logs, hempty, hfold]
    · rw [applyClientLogs_logs, hempty, hfold, List.length_tail, hlen]
      simp

/-- Closed witness for `c8_log_bounding` at concrete inputs (an append
to an empty ring, and 1001 appends from empty). -/
theorem c8_log_bounding_witness :
    ((emptyState.clientLogs cid0).length ≤ MAX_LOGS ∧
      ((addClientLog cid0 "m" emptyState).1.clientLogs cid0).length ≤ MAX_LOGS) ∧
    (((List.range (MAX_LOGS + 1)).map toString).length = MAX_LOGS + 1 ∧
      (applyClientLogs cid0 ((List.range (MAX_LOGS + 1)).map toString) emptyState).clientLogs cid0 =
        ((List.range (MAX_LOGS + 1)).map toString).tail) := by
  refine ⟨⟨by decide, ?_⟩, ⟨by simp, ?_⟩⟩
  · exact (c8_log_bounding.1 emptyState cid0 "m").1 (by decide)
  · exact (c8_log_bounding.2.2 emptyState cid0 _ (by simp) rfl).1

/-! ## C2: `isValidHandshakeResponse` on a length mismatch -/

/-- C2: when the candidate response's decoded byte length differs from
the expected digest's byte length, `isValidHandshakeResponse` does not
return `false` — it raises (`crypto.timingSafeEqual` throws on unequal
buffer lengths, and nothing catches it).  This is evidence for the
`code_bug` verdict: the spec requires `false` on any length mismatch. -/
theorem c2_verify_length_mismatch_throws (hmacHex : String → String → String)
    (challenge response secret : String)
    (h : (bufferFromHex response).length ≠
      (bufferFromHex (computeHandshakeResponse hmacHex challenge secret)).length) :
    isValidHandshakeResponse hmacHex challenge response secret =
      .error "Input buffers must have the same byte length" := by
  simp only [isValidHandshakeResponse, timingSafeEqual, if_pos h]

/-- Closed witness for `c2_verify_length_mismatch_throws`: a 1-byte
response against a 32-byte expected digest. -/
theorem c2_verify_length_mismatch_throws_witness :
    (bufferFromHex "00").length ≠
      (bufferFromHex (computeHandshakeResponse constHmac "challenge" "secret")).length ∧
    isValidHandshakeResponse constHmac "challenge" "00" "secret" =
      .error "Input buffers must have the same byte length" :=
  ⟨by decide, c2_verify_length_mismatch_throws constHmac "challenge" "00" "secret" (by decide)⟩

/-! ## C10: master-log name substitution -/

theorem replaceFirstList_first_occurrence (pat rep : List Char) (hpat : pat ≠ []) :
    ∀ a b : List Char,
      (∀ i < a.length, ¬ pat.isPrefixOf ((a ++ pat ++ b).drop i) = true) →
      replaceFirstList pat rep (a ++ pat ++ b) = a ++ rep ++ b := by
  intro a
  induction a with
  | nil =>
    intro b _
    simp only [List.nil_append]
    have hpfx : pat.isPrefixOf (pat ++ b) = true :=
      List.isPrefixOf_iff_prefix.mpr (List.prefix_append _ _)
    cases hp : pat with
    | nil => exact absurd hp hpat
    | cons p ps =>
      subst hp
      rw [List.cons_append] at hpfx ⊢
      simp only [replaceFirstList, hpfx, if_pos]
      have hd : (p :: (ps ++ b)).drop (p :: ps).length = b := by
        rw [← List.cons_append]
        exact List.drop_left _ _
      rw [hd]
  | cons c a' ih =>
    intro b hfirst
    have h0 : ¬ pat.isPrefixOf ((c :: a') ++ pat ++ b) = true := by
      have := hfirst 0 (by simp)
      simpa using this
    simp only [List.cons_append] at h0 ⊢
    rw [replaceFirstList, if_neg h0]
    congr 1
    apply ih
    intro i hi
    have := hfirst (i + 1) (by simp; omega)
    simpa using this

/-- C10: a master-log append for a client with a known (truthy) display
name stores and broadcasts the message with its bracketed timestamp
prefix and with exactly the first occurrence of the client id replaced
by the display name; later occurrences are untouched.  (`name` is
required `$`-free because JS `String.replace` would expand `$`-escapes
in the replacement, which the model does not reproduce.) -/
theorem c10_masterlog_name_substitution
    (st : ServerState) (tsStr cid name : String) (a b : List Char)
    (hname : st.clientNames cid = some (.str name))
    (hcidne : cid ≠ "")
    (hnamene : name ≠ "")
    (hnodollar : ('$' : Char) ∉ name.data)
    (hfirst : ∀ i < a.length, ¬ cid.data.isPrefixOf ((a ++ cid.data ++ b).drop i) = true) :
    addMasterLog tsStr ⟨a ++ cid.data ++ b⟩ (some cid) st =
      ({ st with masterLog := ringPush st.masterLog ("[" ++ tsStr ++ "] " ++ ⟨a ++ name.data ++ b⟩) },
       [Event.masterLog ("[" ++ tsStr ++ "] " ++ ⟨a ++ name.data ++ b⟩)]) ∧
    (addMasterLog tsStr ⟨a ++ cid.data ++ b⟩ (some cid) st).1.masterLog.getLast? =
      some ("[" ++ tsStr ++ "] " ++ ⟨a ++ name.data ++ b⟩) := by
  have hcdata : cid.data ≠ [] := by
    intro hc
    apply hcidne
    cases cid
    simp_all
  have hrepl : jsReplaceFirst ⟨a ++ cid.data ++ b⟩ cid (jsCoerceString (.str name)) =
      ⟨a ++ name.data ++ b⟩ := by
    show String.mk (replaceFirstList cid.data name.data (a ++ cid.data ++ b)) = _
    rw [replaceFirstList_first_occurrence cid.data name.data hcdata a b hfirst]
  have hsubst : masterLogSubstName st (some cid) ⟨a ++ cid.data ++ b⟩ = ⟨a ++ name.data ++ b⟩ := by
    rw [masterLogSubstName, if_neg hcidne, hname]
    have htruthy : jsTruthy (.str name) = true := by
      simp [jsTruthy, hnamene]
    show (if jsTruthy (JVal.str name) = true then
        jsReplaceFirst ⟨a ++ cid.data ++ b⟩ cid (jsCoerceString (JVal.str name))
      else ⟨a ++ cid.data ++ b⟩) = ⟨a ++ name.data ++ b⟩
    rw [htruthy, if_pos rfl]
    exact hrepl
  have hmain : addMasterLog tsStr ⟨a ++ cid.data ++ b⟩ (some cid) st =
      ({ st with masterLog := ringPush st.masterLog ("[" ++ tsStr ++ "] " ++ ⟨a ++ name.data ++ b⟩) },
       [Event.masterLog ("[" ++ tsStr ++ "] " ++ ⟨a ++ name.data ++ b⟩)]) := by
    unfold addMasterLog
    rw [hsubst]
  refine ⟨hmain, ?_⟩
  rw [hmain]
  exact ringPush_getLast _ _

/-- Closed witness for `c10_masterlog_name_substitution`: the id occurs
twice in the message; only the first occurrence is replaced. -/
theorem c10_masterlog_name_substitution_witness :
    (stNamed.clientNames cid0 = some (.str "Alice") ∧ cid0 ≠ "" ∧
      ('$' : Char) ∉ "Alice".data) ∧
    addMasterLog "12:00:00" ⟨"hello ".data ++ cid0.data ++ (" and " ++ cid0).data⟩ (some cid0) stNamed =
      ({ stNamed with
          masterLog := ringPush stNamed.masterLog
            ("[" ++ "12:00:00" ++ "] " ++ ⟨"hello ".data ++ "Alice".data ++ (" and " ++ cid0).data⟩) },
       [Event.masterLog ("[" ++ "12:00:00" ++ "] " ++ ⟨"hello ".data ++ "Alice".data ++ (" and " ++ cid0).data⟩)]) := by
  refine ⟨⟨rfl, by decide, by decide⟩, ?_⟩
  exact (c10_masterlog_name_substitution stNamed "12:00:00" cid0 "Alice"
    "hello ".data (" and " ++ cid0).data rfl (by decide) (by decide) (by decide)
    (by decide)).1

/-! ## Cleanup / event-counting helper lemmas -/

theorem countCD_nil (cid : String) : countClientDisconnects cid [] = 0 := rfl

theorem countCD_append (cid : String) (l1 l2 : List Event) :
    countClientDisconnects cid (l1 ++ l2) =
      countClientDisconnects cid l1 + countClientDisconnects cid l2 :=
  List.countP_append _ _ _

theorem cleanup_pending (cid : String) (st : ServerState) :
    (cleanupClient cid st).1.pendingHandshakes cid = none := by
  unfold cleanupClient stopUsernameChecker
  cases hu : st.clientUsernameStatus cid with
  | none => simp [hu, upd]
  | some u =>
    by_cases hc : u.checker <;> simp [hu, hc, addClientLog, upd]

theorem cleanup_tcp (cid : String) (st : ServerState) :
    (cleanupClient cid st).1.tcpClients cid = false := by
  unfold cleanupClient stopUsernameChecker
  cases hu : st.clientUsernameStatus cid with
  | none => simp [hu, upd]
  | some u =>
    by_cases hc : u.checker <;> simp [hu, hc, addClientLog, upd]

theorem cleanup_cache (cid : String) (st : ServerState) :
    (cleanupClient cid st).1.clientStateCache cid = none := by
  unfold cleanupClient stopUsernameChecker
  cases hu : st.clientUsernameStatus cid with
  | none => simp [hu, upd]
  | some u =>
    by_cases hc : u.checker <;> simp [hu, hc, addClientLog, upd]

theorem cleanup_usernameStatus (cid : String) (st : ServerState) :
    (cleanupClient cid st).1.clientUsernameStatus cid = none := by
  unfold cleanupClient stopUsernameChecker
  cases hu : st.clientUsernameStatus cid with
  | none => simp [hu, upd]
  | some u =>
    by_cases hc : u.checker <;> simp [hu, hc, addClientLog, upd]

theorem cleanup_destroyed (cid : String) (st : ServerState) :
    (cleanupClient cid st).1.destroyedSockets = st.destroyedSockets := by
  unfold cleanupClient stopUsernameChecker
  cases hu : st.clientUsernameStatus cid with
  | none => simp [hu, upd]
  | some u =>
    by_cases hc : u.checker <;> simp [hu, hc, addClientLog, upd]

theorem cleanup_disc_count (cid cid' : String) (st : ServerState) :
    countClientDisconnects cid' (cleanupClient cid st).2 = 0 := by
  unfold cleanupClient stopUsernameChecker
  cases hu : st.clientUsernameStatus cid with
  | none => simp [hu, countClientDisconnects]
  | some u =>
    by_cases hc : u.checker <;> simp [hu, hc, addClientLog, countClientDisconnects]

/-! ## C4: pre-authentication isolation -/

/-- C4: a non-handshake line from an unauthenticated connection is
dropped with a rejection log only: it is never handed to the Protocol
Normalizer (the result does not depend on the JSON parser or the HMAC at
all and the route is `rejected`), and the client's `clientStateCache`,
`clientStatus`, `clientNames` and `clientLastHeartbeat` maps are
unchanged. -/
theorem c4_preauth_isolation (p q : String → Option JVal)
    (h1 h2 : String → String → String) (s1 s2 : String) (now : Nat)
    (tsStr cid msg : String) (st : ServerState)
    (hpfx : strStartsWith msg "$HandshakeResponse:" = false)
    (hauth : isClientAuthenticated st cid = false) :
    handleLine p h1 s1 now tsStr cid msg st =
      .ok ((addClientLog cid ("[Unauthenticated message rejected]: " ++ msg) st).1,
        [Event.log cid ("[Unauthenticated message rejected]: " ++ msg)], .rejected) ∧
    (addClientLog cid ("[Unauthenticated message rejected]: " ++ msg) st).1.clientStateCache
      = st.clientStateCache ∧
    (addClientLog cid ("[Unauthenticated message rejected]: " ++ msg) st).1.clientStatus
      = st.clientStatus ∧
    (addClientLog cid ("[Unauthenticated message rejected]: " ++ msg) st).1.clientNames
      = st.clientNames ∧
    (addClientLog cid ("[Unauthenticated message rejected]: " ++ msg) st).1.clientLastHeartbeat
      = st.clientLastHeartbeat ∧
    handleLine q h2 s2 now tsStr cid msg st = handleLine p h1 s1 now tsStr cid msg st := by
  have hmain : ∀ (p' : String → Option JVal) (h' : String → String → String) (s' : String),
      handleLine p' h' s' now tsStr cid msg st =
        .ok ((addClientLog cid ("[Unauthenticated message rejected]: " ++ msg) st).1,
          [Event.log cid ("[Unauthenticated message rejected]: " ++ msg)], .rejected) := by
    intro p' h' s'
    unfold handleLine
    rw [hpfx, hauth]
    rfl
  exact ⟨hmain p h1 s1, rfl, rfl, rfl, rfl, by rw [hmain q h2 s2, hmain p h1 s1]⟩

/-- Closed witness for `c4_preauth_isolation`: a pre-auth status line is
rejected. -/
theorem c4_preauth_isolation_witness :
    strStartsWith "$IsLoaded:true" "$HandshakeResponse:" = false ∧
    isClientAuthenticated stPending cid0 = false ∧
    handleLine (fun _ => none) constHmac "secret" 5 "12:00:00" cid0 "$IsLoaded:true" stPending =
      .ok ((addClientLog cid0 ("[Unauthenticated message rejected]: " ++ "$IsLoaded:true") stPending).1,
        [Event.log cid0 ("[Unauthenticated message rejected]: " ++ "$IsLoaded:true")], .rejected) :=
  ⟨by decide, rfl,
    (c4_preauth_isolation (fun _ => none) (fun _ => none) constHmac constHmac
      "secret" "secret" 5 "12:00:00" cid0 "$IsLoaded:true" stPending
      (by decide) rfl).1⟩

/-! ## C1: post-authentication `$HandshakeResponse:` lines -/

/-- C1 (amended): a line starting with `$HandshakeResponse:` is routed
to handshake processing even after authentication, and when it arrives
more than `HANDSHAKE_TIMEOUT` after the challenge was issued the socket
is destroyed and the record cleaned up, with a `client_disconnect`
broadcast — the claim's "treated as an ordinary non-handshake message"
is false on the code. -/
theorem c1_post_auth_handshake_reprocessed
    (p : String → Option JVal) (hm : String → String → String) (sec : String)
    (now : Nat) (tsStr cid msg : String) (st : ServerState) (h : Handshake)
    (hmsg : strStartsWith msg "$HandshakeResponse:" = true)
    (hpend : st.pendingHandshakes cid = some h)
    (hauth : h.authenticated = true)
    (hlate : now - h.timestamp > HANDSHAKE_TIMEOUT) :
    ∃ st1 ev, handleLine p hm sec now tsStr cid msg st = .ok (st1, ev, .handshake) ∧
      st1.destroyedSockets cid = true ∧
      st1.pendingHandshakes cid = none ∧
      st1.tcpClients cid = false ∧
      countClientDisconnects cid ev = 1 := by
  have hproc : processHandshakeResponse hm sec now tsStr cid (jsTrim (strDropChars msg 19)) st =
      .ok ((cleanupClient cid (destroySocket cid
          (addMasterLog tsStr ("Handshake response too late from " ++ cid) (some cid) st).1)).1,
        (addMasterLog tsStr ("Handshake response too late from " ++ cid) (some cid) st).2 ++
          (cleanupClient cid (destroySocket cid
            (addMasterLog tsStr ("Handshake response too late from " ++ cid) (some cid) st).1)).2 ++
          [Event.clientDisconnect cid], false) := by
    unfold processHandshakeResponse
    rw [hpend]
    show (if now - h.timestamp > HANDSHAKE_TIMEOUT then _ else _) = _
    rw [if_pos hlate]
  refine ⟨(cleanupClient cid (destroySocket cid
      (addMasterLog tsStr ("Handshake response too late from " ++ cid) (some cid) st).1)).1,
    (addMasterLog tsStr ("Handshake response too late from " ++ cid) (some cid) st).2 ++
      (cleanupClient cid (destroySocket cid
        (addMasterLog tsStr ("Handshake response too late from " ++ cid) (some cid) st).1)).2 ++
      [Event.clientDisconnect cid], ?_, ?_, ?_, ?_, ?_⟩
  · unfold handleLine
    rw [hmsg]
    show (match processHandshakeResponse hm sec now tsStr cid (jsTrim (strDropChars msg 19)) st with
      | Except.error e => Except.error e
      | Except.ok pr => Except.ok (pr.1, pr.2.1, Route.handshake)) = _
    rw [hproc]
  · rw [show (cleanupClient cid (destroySocket cid
        (addMasterLog tsStr ("Handshake response too late from " ++ cid) (some cid) st).1)).1.destroyedSockets =
        (destroySocket cid (addMasterLog tsStr ("Handshake response too late from " ++ cid) (some cid) st).1).destroyedSockets
      from cleanup_destroyed _ _]
    simp [destroySocket, upd]
  · exact cleanup_pending _ _
  · exact cleanup_tcp _ _
  · rw [countCD_append, countCD_append, cleanup_disc_count]
    simp [countClientDisconnects, addMasterLog]

/-- Closed witness for `c1_post_auth_handshake_reprocessed` on the
authenticated fixture, 10.001 seconds after the challenge was issued. -/
theorem c1_post_auth_handshake_reprocessed_witness :
    strStartsWith "$HandshakeResponse:ab" "$HandshakeResponse:" = true ∧
    stAuthed.pendingHandshakes cid0 =
      some { challenge := "c0ffee", timestamp := 0, authenticated := true } ∧
    10001 - 0 > HANDSHAKE_TIMEOUT ∧
    ∃ st1 ev, handleLine (fun _ => none) constHmac "secret" 10001 "12:00:01" cid0
        "$HandshakeResponse:ab" stAuthed = .ok (st1, ev, .handshake) ∧
      st1.destroyedSockets cid0 = true ∧ st1.pendingHandshakes cid0 = none ∧
      st1.tcpClients cid0 = false ∧ countClientDisconnects cid0 ev = 1 := by
  refine ⟨by decide, rfl, by decide, ?_⟩
  exact c1_post_auth_handshake_reprocessed (fun _ => none) constHmac "secret" 10001 "12:00:01"
    cid0 "$HandshakeResponse:ab" stAuthed
    { challenge := "c0ffee", timestamp := 0, authenticated := true }
    (by decide) rfl rfl (by decide)

/-- Counterexample to C1 as stated: a concrete authenticated connection
whose later `$HandshakeResponse:` line (10.001 s after the challenge) IS
routed to handshake processing and destroys the socket and cleans up the
record. -/
theorem c1_counterexample :
    ∃ st1 ev, handleLine (fun _ => none) constHmac "secret" 10001 "12:00:00" cid0
        "$HandshakeResponse:ab" stAuthed = .ok (st1, ev, .handshake) ∧
      st1.destroyedSockets cid0 = true ∧
      st1.pendingHandshakes cid0 = none :=
  ⟨_, _, rfl, rfl, rfl⟩

/-! ## C3: handshake-timeout eviction -/

theorem timeoutCallback_eq (tsStr cid : String) (st : ServerState) (h : Handshake)
    (hpend : st.pendingHandshakes cid = some h) (hauth : h.authenticated = false) :
    handshakeTimeoutCallback tsStr cid st =
      ((cleanupClient cid (destroySocket cid
          (addMasterLog tsStr ("Handshake timeout for " ++ cid) (some cid) st).1)).1,
       (addMasterLog tsStr ("Handshake timeout for " ++ cid) (some cid) st).2 ++
         (cleanupClient cid (destroySocket cid
           (addMasterLog tsStr ("Handshake timeout for " ++ cid) (some cid) st).1)).2 ++
         [Event.clientDisconnect cid]) := by
  unfold handshakeTimeoutCallback
  rw [hpend]
  show (if (!h.authenticated) = true then _ else _) = _
  rw [hauth]
  rfl

theorem countCD_single_log (cid a b : String) :
    countClientDisconnects cid [Event.log a b] = 0 := rfl

theorem countCD_single_master (cid m : String) :
    countClientDisconnects cid [Event.masterLog m] = 0 := rfl

theorem countCD_single_disc (cid : String) :
    countClientDisconnects cid [Event.clientDisconnect cid] = 1 := by
  simp [countClientDisconnects]

theorem closeHandler_disc_count (tsStr cid : String) (st : ServerState) :
    countClientDisconnects cid (socketCloseHandler tsStr cid st).2 = 1 := by
  simp only [socketCloseHandler, addClientLog, addMasterLog, countCD_append,
    countCD_single_log, countCD_single_master, countCD_single_disc, cleanup_disc_count]

theorem closeHandler_pending (tsStr cid : String) (st : ServerState) :
    (socketCloseHandler tsStr cid st).1.pendingHandshakes cid = none := by
  unfold socketCloseHandler
  exact cleanup_pending _ _

/-- C3 (amended): a connection that never answers its challenge is fully
evicted by the per-connection timeout callback (which `setTimeout`
schedules `HANDSHAKE_TIMEOUT` ms after connect, within the claimed
`HANDSHAKE_TIMEOUT + sweepPeriod` bound), but the eviction publishes TWO
`client_disconnect` events — one from the timeout callback and a second
from the close handler that Node fires for the destroyed socket; the
subsequent handshake sweep contributes none.  The claim's "exactly one"
is false on the code. -/
theorem c3_timeout_eviction_two_disconnects
    (tsStr1 tsStr2 : String) (now : Nat) (cid : String) (st : ServerState) (h : Handshake)
    (hpend : st.pendingHandshakes cid = some h)
    (hauth : h.authenticated = false) :
    countClientDisconnects cid ((handshakeTimeoutCallback tsStr1 cid st).2 ++
        (socketCloseHandler tsStr2 cid (handshakeTimeoutCallback tsStr1 cid st).1).2 ++
        (handshakeSweepStep now cid
          (socketCloseHandler tsStr2 cid (handshakeTimeoutCallback tsStr1 cid st).1).1).2) = 2 ∧
    (handshakeSweepStep now cid
      (socketCloseHandler tsStr2 cid (handshakeTimeoutCallback tsStr1 cid st).1).1).2 = [] ∧
    (handshakeTimeoutCallback tsStr1 cid st).1.pendingHandshakes cid = none ∧
    (handshakeTimeoutCallback tsStr1 cid st).1.tcpClients cid = false ∧
    (handshakeTimeoutCallback tsStr1 cid st).1.clientStateCache cid = none ∧
    (handshakeTimeoutCallback tsStr1 cid st).1.destroyedSockets cid = true ∧
    HANDSHAKE_TIMEOUT ≤ HANDSHAKE_TIMEOUT + SWEEP_PERIOD := by
  have htc := timeoutCallback_eq tsStr1 cid st h hpend hauth
  have hsweep : handshakeSweepStep now cid
      (socketCloseHandler tsStr2 cid (handshakeTimeoutCallback tsStr1 cid st).1).1 =
      ((socketCloseHandler tsStr2 cid (handshakeTimeoutCallback tsStr1 cid st).1).1, []) := by
    unfold handshakeSweepStep
    rw [closeHandler_pending]
  have hcount1 : countClientDisconnects cid (handshakeTimeoutCallback tsStr1 cid st).2 = 1 := by
    rw [htc]
    rw [countCD_append, countCD_append, cleanup_disc_count]
    simp [countClientDisconnects, addMasterLog]
  refine ⟨?_, ?_, ?_, ?_, ?_, ?_, by simp⟩
  · rw [countCD_append, countCD_append, hcount1, closeHandler_disc_count, hsweep]
    rfl
  · rw [hsweep]
  · rw [htc]; exact cleanup_pending _ _
  · rw [htc]; exact cleanup_tcp _ _
  · rw [htc]; exact cleanup_cache _ _
  · rw [htc]
    rw [show (cleanupClient cid (destroySocket cid
        (addMasterLog tsStr1 ("Handshake timeout for " ++ cid) (some cid) st).1)).1.destroyedSockets =
        (destroySocket cid (addMasterLog tsStr1 ("Handshake timeout for " ++ cid) (some cid) st).1).destroyedSockets
      from cleanup_destroyed _ _]
    simp [destroySocket, upd]

/-- Closed witness for `c3_timeout_eviction_two_disconnects` on the
concrete pending connection. -/
theorem c3_timeout_eviction_two_disconnects_witness :
    stPending.pendingHandshakes cid0 =
      some { challenge := "c0ffee", timestamp := 0, authenticated := false } ∧
    countClientDisconnects cid0 ((handshakeTimeoutCallback "t1" cid0 stPending).2 ++
        (socketCloseHandler "t2" cid0 (handshakeTimeoutCallback "t1" cid0 stPending).1).2 ++
        (handshakeSweepStep 15000 cid0
          (socketCloseHandler "t2" cid0 (handshakeTimeoutCallback "t1" cid0 stPending).1).1).2) = 2 :=
  ⟨rfl, (c3_timeout_eviction_two_disconnects "t1" "t2" 15000 cid0 stPending
    { challenge := "c0ffee", timestamp := 0, authenticated := false } rfl rfl).1⟩

/-- Counterexample to C3 as stated ("exactly one `client_disconnect`"):
on the concrete never-responding connection the three eviction paths
together publish two. -/
theorem c3_counterexample :
    countClientDisconnects cid0 ((handshakeTimeoutCallback "t1" cid0 stPending).2 ++
        (socketCloseHandler "t2" cid0 (handshakeTimeoutCallback "t1" cid0 stPending).1).2 ++
        (handshakeSweepStep 15000 cid0
          (socketCloseHandler "t2" cid0 (handshakeTimeoutCallback "t1" cid0 stPending).1).1).2) = 2 ∧
    ¬ countClientDisconnects cid0 ((handshakeTimeoutCallback "t1" cid0 stPending).2 ++
        (socketCloseHandler "t2" cid0 (handshakeTimeoutCallback "t1" cid0 stPending).1).2 ++
        (handshakeSweepStep 15000 cid0
          (socketCloseHandler "t2" cid0 (handshakeTimeoutCallback "t1" cid0 stPending).1).1).2) = 1 := by
  refine ⟨by decide, by decide⟩

/-! ## C9: the username poller -/

/-- C9 (amended): until a non-empty `username_response` arrives the
poller keeps ticking once per second but issues AT MOST ONE request in
total: once `requestSent` is set, a tick with no username in hand does
nothing at all — in particular, after an empty/missing username response
(which leaves `hasUsername` false and the record untouched) NO further
requests are issued, contrary to the claim's "requests continue".  Once
a non-empty `username_response` arrives, the display name is stored and
announced exactly once and the next tick cancels the checker without
writing to the socket. -/
theorem c9_username_poller_amended :
    (∀ (tsStr cid : String) (st : ServerState) (u : UsernameStatus),
      st.clientUsernameStatus cid = some u → u.hasUsername = false → u.requestSent = true →
      usernameCheckerTick tsStr cid st = (st, [])) ∧
    (∀ (cid : String) (username : JVal) (st : ServerState),
      jsTruthy username = false →
      (handleUsernameResponse cid username st).1.clientUsernameStatus = st.clientUsernameStatus ∧
      (handleUsernameResponse cid username st).2 =
        [Event.log cid "[Username response received but empty]"]) ∧
    (∀ (cid : String) (username : JVal) (st : ServerState) (u : UsernameStatus),
      jsTruthy username = true →
      jsStrictEq ((st.clientNames cid).getD .undefined) username = false →
      st.clientUsernameStatus cid = some u →
      (handleUsernameResponse cid username st).1.clientNames cid = some username ∧
      (handleUsernameResponse cid username st).1.clientUsernameStatus cid =
        some { u with hasUsername := true } ∧
      countTabUpdates cid (handleUsernameResponse cid username st).2 = 1 ∧
      countSockWrites cid (handleUsernameResponse cid username st).2 = 0) ∧
    (∀ (tsStr cid : String) (st : ServerState) (u : UsernameStatus),
      st.clientUsernameStatus cid = some u → u.hasUsername = true →
      (usernameCheckerTick tsStr cid st).1.clientUsernameStatus cid =
        some { u with checker := false } ∧
      countSockWrites cid (usernameCheckerTick tsStr cid st).2 = 0) := by
  refine ⟨?_, ?_, ?_, ?_⟩
  · intro tsStr cid st u hu h1 h2
    unfold usernameCheckerTick
    rw [hu]
    show (if u.hasUsername = true then _ else _) = (st, [])
    rw [h1]
    show (if (!u.requestSent) = true then _ else _) = (st, [])
    rw [h2]
    rfl
  · intro cid username st hempty
    have hmain : handleUsernameResponse cid username st =
        addClientLog cid "[Username response received but empty]" st := by
      unfold handleUsernameResponse
      rw [hempty]
      rfl
    exact ⟨by rw [hmain]; rfl, by rw [hmain]; rfl⟩
  · intro cid username st u htr hne hu
    have hmain :
        handleUsernameResponse cid username st =
          ((addClientLog cid ("[Tab name updated]: " ++
              jsCoerceString ((st.clientNames cid).getD JVal.undefined) ++ " -> " ++
              jsCoerceString username) ((addClientLog cid
                ("[Username received]: " ++ jsCoerceString username)
              { st with
                clientNames := upd st.clientNames cid (some username),
                clientUsernameStatus := upd st.clientUsernameStatus cid
                  (some { u with hasUsername := true }) }).1)).1,
           [Event.log cid ("[Username received]: " ++ jsCoerceString username)] ++
             [Event.updateTabName cid username] ++
             [Event.log cid ("[Tab name updated]: " ++
               jsCoerceString ((st.clientNames cid).getD JVal.undefined) ++ " -> " ++
               jsCoerceString username)]) := by
      unfold handleUsernameResponse
      rw [htr]
      show (if (!true) = true then _ else _) = _
      simp only [Bool.not_true, Bool.false_eq_true, if_false]
      rw [show ({ st with clientNames := upd st.clientNames cid (some username) }
          : ServerState).clientUsernameStatus cid = some u from hu]
      show (if (!(jsStrictEq ((st.clientNames cid).getD JVal.undefined) username)) = true
        then _ else _) = _
      rw [hne]
      rfl
    refine ⟨by rw [hmain]; simp [addClientLog, upd], by rw [hmain]; simp [addClientLog, upd], ?_, ?_⟩
    · rw [hmain]
      simp [countTabUpdates, List.countP_append, List.countP_cons, addClientLog]
    · rw [hmain]
      simp [countSockWrites, List.countP_append, List.countP_cons, addClientLog]
  · intro tsStr cid st u hu h1
    have hmain : usernameCheckerTick tsStr cid st =
        addClientLog cid "[Username checker stopped - username received]"
          { st with clientUsernameStatus := upd st.clientUsernameStatus cid (some { u with checker := false }) } := by
      unfold usernameCheckerTick
      rw [hu]
      show (if u.hasUsername = true then _ else _) = _
      rw [h1]
      rfl
    constructor
    · rw [hmain]
      simp [addClientLog, upd]
    · rw [hmain]
      simp [countSockWrites, addClientLog]

/-- Closed witness for `c9_username_poller_amended`: the concrete
polling fixture, an empty response, a non-empty response, and the
stop-tick. -/
theorem c9_username_poller_amended_witness :
    usernameCheckerTick "t" cid0 stPolling = (stPolling, []) ∧
    (handleUsernameResponse cid0 (.str "") stPolling).1.clientUsernameStatus =
      stPolling.clientUsernameStatus ∧
    (handleUsernameResponse cid0 (.str "Alice") stPolling).1.clientNames cid0 =
      some (.str "Alice") := by
  refine ⟨?_, ?_, ?_⟩
  · exact c9_username_poller_amended.1 "t" cid0 stPolling
      { hasUsername := false, requestSent := true, checker := true } rfl rfl rfl
  · exact (c9_username_poller_amended.2.1 cid0 (.str "") stPolling (by decide)).1
  · exact (c9_username_poller_amended.2.2.1 cid0 (.str "Alice") stPolling
      { hasUsername := false, requestSent := true, checker := true }
      (by decide) (by decide) rfl).1

/-- Counterexample to C9 as stated: after an empty `username_response`
(`hasUsername` stays false, as the claim says) the next two poller ticks
issue ZERO username requests — the poller does not "keep issuing"
requests once its single request was sent. -/
theorem c9_counterexample :
    (handleUsernameResponse cid0 (.str "") stPolling).1.clientUsernameStatus cid0 =
      some { hasUsername := false, requestSent := true, checker := true } ∧
    countSockWrites cid0
      (usernameCheckerTick "t" cid0 (handleUsernameResponse cid0 (.str "") stPolling).1).2 = 0 ∧
    countSockWrites cid0
      (usernameCheckerTick "t2" cid0
        (usernameCheckerTick "t" cid0 (handleUsernameResponse cid0 (.str "") stPolling).1).1).2 = 0 := by
  exact ⟨rfl, by decide, by decide⟩

/-! ## C5: handshake verification round-trip and bit-flip sensitivity -/

theorem natOr_eq_zero {a b : Nat} (h : a ||| b = 0) : a = 0 ∧ b = 0 := by
  constructor <;> apply Nat.eq_of_testBit_eq <;> intro i <;>
    [skip; skip] <;>
  · have hb := congrArg (fun n => n.testBit i) h
    simp only [Nat.testBit_or, Nat.zero_testBit, Bool.or_eq_false_iff] at hb
    simp [hb.1, hb.2]

theorem foldl_or_eq_zero (l : List Nat) :
    ∀ acc, (l.foldl (fun x d => x ||| d) acc = 0) ↔ (acc = 0 ∧ ∀ x ∈ l, x = 0) := by
  induction l with
  | nil => simp
  | cons y ys ih =>
    intro acc
    simp only [List.foldl_cons]
    rw [ih]
    constructor
    · rintro ⟨h1, h2⟩
      obtain ⟨ha, hy⟩ := natOr_eq_zero h1
      refine ⟨ha, fun x hx => ?_⟩
      rcases List.mem_cons.mp hx with rfl | hx
      · exact hy
      · exact h2 x hx
    · rintro ⟨ha, hall⟩
      refine ⟨?_, fun x hx => hall x (List.mem_cons_of_mem _ hx)⟩
      rw [ha, hall y (List.mem_cons_self _ _)]
      simp

theorem timingSafeEqual_self (l : List Nat) : timingSafeEqual l l = .ok true := by
  unfold timingSafeEqual
  rw [if_neg (by simp)]
  have hz : (List.zipWith (fun x y => x ^^^ y) l l).foldl (fun acc d => acc ||| d) 0 = 0 := by
    rw [foldl_or_eq_zero]
    refine ⟨rfl, fun x hx => ?_⟩
    rw [List.zipWith_same] at hx
    obtain ⟨a, _, rfl⟩ := List.mem_map.mp hx
    exact Nat.xor_self a
  rw [hz]
  rfl

theorem timingSafeEqual_of_ne (l1 l2 : List Nat) (hlen : l1.length = l2.length)
    (i : Nat) (h1 : i < l1.length) (h2 : i < l2.length) (hne : l1[i] ≠ l2[i]) :
    timingSafeEqual l1 l2 = .ok false := by
  unfold timingSafeEqual
  rw [if_neg (by simp [hlen])]
  have hf : (List.zipWith (fun x y => x ^^^ y) l1 l2).foldl (fun acc d => acc ||| d) 0 ≠ 0 := by
    intro h0
    have hall := ((foldl_or_eq_zero _ _).mp h0).2
    have hzlen : i < (List.zipWith (fun x y => x ^^^ y) l1 l2).length := by
      rw [List.length_zipWith]
      omega
    have hmem : l1[i] ^^^ l2[i] ∈ List.zipWith (fun x y => x ^^^ y) l1 l2 := by
      rw [show l1[i] ^^^ l2[i] = (List.zipWith (fun x y => x ^^^ y) l1 l2)[i]
        from (List.getElem_zipWith (h := hzlen)).symm]
      exact List.getElem_mem _
    exact hne (Nat.xor_eq_zero.mp (hall _ hmem))
  have hb : ((List.zipWith (fun x y => x ^^^ y) l1 l2).foldl (fun acc d => acc ||| d) 0 == 0)
      = false := by
    simpa using hf
  rw [hb]

theorem hexVal?_lt {c : Char} {n : Nat} (h : hexVal? c = some n) : n < 16 := by
  simp only [hexVal?] at h
  split_ifs at h <;> simp only [Option.some.injEq] at h <;> omega

theorem hexDecodeList_lt_256 : ∀ l : List Char, ∀ b ∈ hexDecodeList l, b < 256 := by
  intro l
  induction l using hexDecodeList.induct with
  | case1 c1 c2 rest hi lo hhi hlo ih =>
    intro b hb
    rw [hexDecodeList, hhi, hlo] at hb
    rcases List.mem_cons.mp hb with rfl | hb
    · have h1 := hexVal?_lt hhi
      have h2 := hexVal?_lt hlo
      omega
    · exact ih b hb
  | case2 c1 c2 rest hbad =>
    intro b hb
    rcases hx : hexVal? c1 with _ | hi
    · rw [hexDecodeList, hx] at hb
      simp at hb
    · rcases hy : hexVal? c2 with _ | lo
      · rw [hexDecodeList, hx, hy] at hb
        simp at hb
      · exact (hbad hi lo hx hy).elim
  | case3 l hne =>
    intro b hb
    rw [hexDecodeList] at hb
    · simp at hb
    · exact hne

theorem hexVal?_hexDigitChar (n : Nat) (h : n < 16) :
    hexVal? (hexDigitChar n) = some n := by
  interval_cases n <;> decide

theorem hexDecode_hexEncode : ∀ bs : List Nat, (∀ b ∈ bs, b < 256) →
    hexDecodeList (hexEncodeList bs) = bs := by
  intro bs
  induction bs with
  | nil => intro _; rfl
  | cons b rest ih =>
    intro h
    have hb : b < 256 := h b (List.mem_cons_self _ _)
    rw [hexEncodeList, hexDecodeList,
      hexVal?_hexDigitChar (b / 16) (by omega),
      hexVal?_hexDigitChar (b % 16) (by omega)]
    show (16 * (b / 16) + b % 16) :: hexDecodeList (hexEncodeList rest) = b :: rest
    rw [ih (fun x hx => h x (List.mem_cons_of_mem _ hx))]
    congr 1
    omega

/-- C5: for every challenge and secret, verification accepts the
expected response (`verify(c, expectedResponse(c, s), s) = true`, with
no exception), and flipping any single bit of the response buffer makes
verification return `false`. -/
theorem c5_handshake_verify_correct (hmacHex : String → String → String) (c s : String) :
    isValidHandshakeResponse hmacHex c (computeHandshakeResponse hmacHex c s) s = .ok true ∧
    (∀ i j : Nat, i < (bufferFromHex (computeHandshakeResponse hmacHex c s)).length → j < 8 →
      isValidHandshakeResponse hmacHex c
        (hexEncodeStr (flipBitByte (bufferFromHex (computeHandshakeResponse hmacHex c s)) i j)) s =
        .ok false) := by
  constructor
  · exact timingSafeEqual_self (bufferFromHex (computeHandshakeResponse hmacHex c s))
  · intro i j hi hj
    have hlt : ∀ b ∈ bufferFromHex (computeHandshakeResponse hmacHex c s), b < 256 :=
      hexDecodeList_lt_256 _
    have hgd : (bufferFromHex (computeHandshakeResponse hmacHex c s)).getD i 0 < 256 := by
      rw [List.getD_eq_getElem _ _ hi]
      exact hlt _ (List.getElem_mem _)
    have hpow : (2 : Nat) ^ j < 256 := by
      have h7 : (2 : Nat) ^ j ≤ 2 ^ 7 := Nat.pow_le_pow_right (by omega) (by omega)
      omega
    have hflt : ∀ b ∈ flipBitByte (bufferFromHex (computeHandshakeResponse hmacHex c s)) i j,
        b < 256 := by
      intro b hb
      rcases List.mem_or_eq_of_mem_set hb with hb | rfl
      · exact hlt _ hb
      · have h256 : (256 : Nat) = 2 ^ 8 := by norm_num
        rw [h256]
        exact Nat.xor_lt_two_pow (h256 ▸ hgd) (h256 ▸ hpow)
    have hdec : bufferFromHex
        (hexEncodeStr (flipBitByte (bufferFromHex (computeHandshakeResponse hmacHex c s)) i j)) =
        flipBitByte (bufferFromHex (computeHandshakeResponse hmacHex c s)) i j :=
      hexDecode_hexEncode _ hflt
    show timingSafeEqual (bufferFromHex
        (hexEncodeStr (flipBitByte (bufferFromHex (computeHandshakeResponse hmacHex c s)) i j)))
        (bufferFromHex (computeHandshakeResponse hmacHex c s)) = .ok false
    rw [hdec]
    have hilen : i < (flipBitByte (bufferFromHex (computeHandshakeResponse hmacHex c s)) i j).length := by
      unfold flipBitByte
      rw [List.length_set]
      exact hi
    apply timingSafeEqual_of_ne _ _ (by unfold flipBitByte; rw [List.length_set]) i hilen hi
    show (List.set _ i _)[i] ≠ _
    rw [List.getElem_set_self, List.getD_eq_getElem _ _ hi]
    intro heq
    have hcancel : ((bufferFromHex (computeHandshakeResponse hmacHex c s))[i] ^^^ 2 ^ j) ^^^
        (bufferFromHex (computeHandshakeResponse hmacHex c s))[i] = 2 ^ j := by
      rw [Nat.xor_comm _ (2 ^ j), Nat.xor_assoc, Nat.xor_self, Nat.xor_zero]
    rw [heq] at hcancel
    rw [Nat.xor_self] at hcancel
    have : (0 : Nat) < 2 ^ j := Nat.pos_pow_of_pos j (by omega)
    omega

/-- Closed witness for `c5_handshake_verify_correct` with the constant
digest and a flip of bit 0 of byte 0. -/
theorem c5_handshake_verify_correct_witness :
    isValidHandshakeResponse constHmac "ch" (computeHandshakeResponse constHmac "ch" "sec") "sec" =
      .ok true ∧
    isValidHandshakeResponse constHmac "ch"
      (hexEncodeStr (flipBitByte (bufferFromHex (computeHandshakeResponse constHmac "ch" "sec")) 0 0))
      "sec" = .ok false :=
  ⟨(c5_handshake_verify_correct constHmac "ch" "sec").1,
   (c5_handshake_verify_correct constHmac "ch" "sec").2 0 0 (by decide) (by decide)⟩

/-! ## Deep-compare lemmas (towards C6 and C7) -/

theorem hasKey_of_mem {kvs : List (String × JVal)} {k : String} {v : JVal}
    (h : (k, v) ∈ kvs) : hasKey kvs k = true := by
  induction kvs with
  | nil => simp at h
  | cons p rest ih =>
    obtain ⟨k', v'⟩ := p
    rcases List.mem_cons.mp h with heq | hmem
    · obtain ⟨rfl, rfl⟩ := Prod.mk.injEq .. ▸ heq
      simp [hasKey]
    · simp [hasKey, ih hmem]

theorem hasKey_iff_mem_keys {kvs : List (String × JVal)} {k : String} :
    hasKey kvs k = true ↔ k ∈ kvs.map Prod.fst := by
  induction kvs with
  | nil => simp [hasKey]
  | cons p rest ih =>
    obtain ⟨k', v'⟩ := p
    simp only [hasKey, List.map_cons, List.mem_cons, Bool.or_eq_true, decide_eq_true_eq, ih]
    constructor
    · rintro (rfl | h)
      · exact Or.inl rfl
      · exact Or.inr h
    · rintro (rfl | h)
      · exact Or.inl rfl
      · exact Or.inr h

theorem lookupKV_eq_undef_of_not_mem {kvs : List (String × JVal)} {k : String}
    (h : k ∉ kvs.map Prod.fst) : lookupKV kvs k = .undefined := by
  induction kvs with
  | nil => rfl
  | cons p rest ih =>
    obtain ⟨k', v'⟩ := p
    simp only [List.map_cons, List.mem_cons, not_or] at h
    rw [lookupKV, if_neg (by simpa using Ne.symm h.1)]
    exact ih h.2

theorem lookupKV_mem_of_hasKey {kvs : List (String × JVal)} {k : String}
    (h : hasKey kvs k = true) : (k, lookupKV kvs k) ∈ kvs := by
  induction kvs with
  | nil => simp [hasKey] at h
  | cons p rest ih =>
    obtain ⟨k', v'⟩ := p
    by_cases hk : k' = k
    · subst hk
      rw [lookupKV, if_pos rfl]
      exact List.mem_cons_self _ _
    · rw [lookupKV, if_neg hk]
      simp only [hasKey, Bool.or_eq_true, decide_eq_true_eq] at h
      rcases h with h | h
      · exact absurd h hk
      · exact List.mem_cons_of_mem _ (ih h)

theorem lookupKV_of_mem_nodup {kvs : List (String × JVal)} {k : String} {v : JVal}
    (hnd : nodupKeysB (kvs.map Prod.fst) = true) (h : (k, v) ∈ kvs) :
    lookupKV kvs k = v := by
  induction kvs with
  | nil => simp at h
  | cons p rest ih =>
    obtain ⟨k', v'⟩ := p
    simp only [List.map_cons, nodupKeysB, Bool.and_eq_true, Bool.not_eq_true] at hnd
    rcases List.mem_cons.mp h with heq | hmem
    · obtain ⟨rfl, rfl⟩ := Prod.mk.injEq .. ▸ heq
      rw [lookupKV, if_pos rfl]
    · rw [lookupKV]
      by_cases hk : k' = k
      · subst hk
        exfalso
        have hkk : k' ∈ rest.map Prod.fst := List.mem_map.mpr ⟨(k', v), hmem, rfl⟩
        have : (rest.map Prod.fst).contains k' = true := by
          rw [show (rest.map Prod.fst).contains k' = (rest.map Prod.fst).elem k' from rfl,
            List.elem_iff]
          exact hkk
        rw [this] at hnd
        exact absurd hnd.1 (by simp)
      · rw [if_neg hk]
        exact ih hnd.2 hmem

theorem wfFields_mem {kvs : List (String × JVal)} {k : String} {v : JVal}
    (hwf : wfFields kvs = true) (h : (k, v) ∈ kvs) : wfJ v = true := by
  induction kvs with
  | nil => simp at h
  | cons p rest ih =>
    obtain ⟨k', v'⟩ := p
    rw [wfFields, Bool.and_eq_true] at hwf
    rcases List.mem_cons.mp h with heq | hmem
    · obtain ⟨rfl, rfl⟩ := Prod.mk.injEq .. ▸ heq
      exact hwf.1
    · exact ih hwf.2 hmem

theorem deepCompareFields_of_all :
    ∀ (kvs1 kvs2 : List (String × JVal)),
      (∀ k v, (k, v) ∈ kvs1 → hasKey kvs2 k = true ∧ deepCompare v (lookupKV kvs2 k) = true) →
      deepCompareFields kvs1 kvs2 = true := by
  intro kvs1
  induction kvs1 with
  | nil => intro kvs2 _; rfl
  | cons p rest ih =>
    intro kvs2 hall
    obtain ⟨k, v⟩ := p
    obtain ⟨hk, hd⟩ := hall k v (List.mem_cons_self _ _)
    rw [deepCompareFields, hk]
    show (if (!true) = true then false
      else if (!(deepCompare v (lookupKV kvs2 k))) = true then false
      else deepCompareFields rest kvs2) = true
    rw [hd]
    show deepCompareFields rest kvs2 = true
    exact ih kvs2 (fun k' v' h' => hall k' v' (List.mem_cons_of_mem _ h'))

theorem deepCompare_refl : ∀ v : JVal, wfJ v = true → deepCompare v v = true := by
  refine wfJ.induct
    (fun v => wfJ v = true → deepCompare v v = true)
    (fun kvs => wfFields kvs = true → ∀ k w, (k, w) ∈ kvs → deepCompare w w = true)
    ?_ ?_ ?_ ?_
  · intro kvs ih hwf
    rw [wfJ, Bool.and_eq_true] at hwf
    rw [deepCompare]
    show (if false = true then true
      else if (isNullish (JVal.obj kvs) || isNullish (JVal.obj kvs)) = true then false
      else if typeofJ (JVal.obj kvs) ≠ typeofJ (JVal.obj kvs) then false
      else if kvs.length ≠ kvs.length then false
      else deepCompareFields kvs kvs) = true
    simp only [Bool.false_eq_true, if_false, isNullish, Bool.or_self, ne_eq,
      not_true_eq_false, if_neg, if_true]
    apply deepCompareFields_of_all
    intro k v hmem
    refine ⟨hasKey_of_mem hmem, ?_⟩
    rw [lookupKV_of_mem_nodup hwf.1 hmem]
    exact ih hwf.2 k v hmem
  · intro t hne _
    cases t with
    | null => rfl
    | undefined => rfl
    | bool b => simp [deepCompare, jsStrictEq]
    | num n => simp [deepCompare, jsStrictEq]
    | str s => simp [deepCompare, jsStrictEq]
    | obj kvs => exact absurd rfl (by intro h; exact hne kvs h)
  · intro _ k w h
    simp at h
  · intro fst v rest ih1 ih2 hwf k w hmem
    rw [wfFields, Bool.and_eq_true] at hwf
    rcases List.mem_cons.mp hmem with heq | hmem2
    · obtain ⟨rfl, rfl⟩ := Prod.mk.injEq .. ▸ heq
      exact ih1 hwf.1
    · exact ih2 hwf.2 k w hmem2

theorem mem_dedupFirstAux :
    ∀ (l seen : List String) (k : String), k ∈ dedupFirstAux seen l ↔ (k ∈ l ∧ k ∉ seen) := by
  intro l
  induction l with
  | nil => simp [dedupFirstAux]
  | cons x rest ih =>
    intro seen k
    rw [dedupFirstAux]
    by_cases hx : seen.contains x = true
    · rw [if_pos hx, ih]
      have hxs : x ∈ seen := by
        rwa [show seen.contains x = seen.elem x from rfl, List.elem_iff] at hx
      simp only [List.mem_cons]
      constructor
      · rintro ⟨h1, h2⟩
        exact ⟨Or.inr h1, h2⟩
      · rintro ⟨h1, h2⟩
        rcases h1 with rfl | h1
        · exact absurd hxs h2
        · exact ⟨h1, h2⟩
    · rw [if_neg hx]
      have hxs : x ∉ seen := by
        intro hc
        exact hx (by rw [show seen.contains x = seen.elem x from rfl, List.elem_iff]; exact hc)
      simp only [List.mem_cons, ih, List.mem_cons, not_or]
      constructor
      · rintro (rfl | ⟨h1, h2⟩)
        · exact ⟨Or.inl rfl, hxs⟩
        · exact ⟨Or.inr h1, h2.2⟩
      · rintro ⟨h1, h2⟩
        rcases h1 with rfl | h1
        · exact Or.inl rfl
        · by_cases hkx : k = x
          · exact Or.inl hkx
          · exact Or.inr ⟨h1, hkx, h2⟩

theorem mem_dedupFirst (l : List String) (k : String) : k ∈ dedupFirst l ↔ k ∈ l := by
  unfold dedupFirst
  rw [mem_dedupFirstAux]
  simp

/-- `getChangedFields` on two objects, with the truthiness guards and
optional-chaining lookups reduced. -/
theorem getChangedFields_obj (okvs nkvs : List (String × JVal)) :
    getChangedFields (.obj okvs) (.obj nkvs) =
      (if 0 < (((dedupFirst (okvs.map Prod.fst ++ nkvs.map Prod.fst)).filter
          (fun k => !(deepCompare (lookupKV okvs k) (lookupKV nkvs k)))).map
          (fun k => (k, lookupKV nkvs k))).length
       then some (((dedupFirst (okvs.map Prod.fst ++ nkvs.map Prod.fst)).filter
          (fun k => !(deepCompare (lookupKV okvs k) (lookupKV nkvs k)))).map
          (fun k => (k, lookupKV nkvs k)))
       else none) := rfl

theorem getChangedFields_self (kvs : List (String × JVal)) (hwf : wfJ (.obj kvs) = true) :
    getChangedFields (.obj kvs) (.obj kvs) = none := by
  have hfil : ((dedupFirst (kvs.map Prod.fst ++ kvs.map Prod.fst)).filter
      (fun k => !(deepCompare (lookupKV kvs k) (lookupKV kvs k)))) = [] := by
    rw [List.filter_eq_nil_iff]
    intro k hk
    have hmemk : k ∈ kvs.map Prod.fst := by
      have := (mem_dedupFirst _ _).mp hk
      simpa using this
    have hhk : hasKey kvs k = true := hasKey_iff_mem_keys.mpr hmemk
    have hmem := lookupKV_mem_of_hasKey hhk
    rw [wfJ, Bool.and_eq_true] at hwf
    have hv := wfFields_mem hwf.2 hmem
    simp [deepCompare_refl _ hv]
  rw [getChangedFields_obj, hfil]
  simp

/-! ## `handleStatusUpdate` branch lemmas -/

theorem handleStatusUpdate_some (cid : String) (newStatus tsField : JVal) (serverTs : String)
    (st : ServerState) (changes : List (String × JVal))
    (htr : jsTruthy newStatus = true)
    (hch : getChangedFields (jsOrEmpty ((st.clientStateCache cid).getD .undefined)) newStatus =
      some changes) :
    handleStatusUpdate cid newStatus tsField serverTs st =
      handleStatusUpdateChanged cid newStatus tsField serverTs changes st := by
  unfold handleStatusUpdate
  rw [htr, hch]
  rfl

theorem handleStatusUpdate_none (cid : String) (newStatus tsField : JVal) (serverTs : String)
    (st : ServerState)
    (htr : jsTruthy newStatus = true)
    (hch : getChangedFields (jsOrEmpty ((st.clientStateCache cid).getD .undefined)) newStatus =
      none) :
    handleStatusUpdate cid newStatus tsField serverTs st =
      addClientLog cid "[Status update - no changes detected]" st := by
  unfold handleStatusUpdate
  rw [htr, hch]
  rfl

theorem usic_cache (cid field : String) (changes : List (String × JVal)) (st : ServerState) :
    (updateStatusIfChanged cid field changes st).1.clientStateCache = st.clientStateCache := by
  unfold updateStatusIfChanged updateStatusField
  split <;> rfl

theorem usic_sj_count (cid' cid field : String) (changes : List (String × JVal))
    (st : ServerState) :
    countStatusJson cid' (updateStatusIfChanged cid field changes st).2 = 0 := by
  unfold updateStatusIfChanged updateStatusField
  split <;> rfl

theorem countSJ_append (cid : String) (l1 l2 : List Event) :
    countStatusJson cid (l1 ++ l2) = countStatusJson cid l1 + countStatusJson cid l2 :=
  List.countP_append _ _ _

theorem hsuc_cache (cid : String) (newStatus tsField : JVal) (serverTs : String)
    (changes : List (String × JVal)) (st : ServerState) :
    (handleStatusUpdateChanged cid newStatus tsField serverTs changes st).1.clientStateCache cid =
      some (jsShallowCopy newStatus) := by
  simp only [handleStatusUpdateChanged, addClientLog, usic_cache]
  simp [upd]

theorem hsuc_count (cid : String) (newStatus tsField : JVal) (serverTs : String)
    (changes : List (String × JVal)) (st : ServerState) :
    countStatusJson cid (handleStatusUpdateChanged cid newStatus tsField serverTs changes st).2 =
      1 := by
  simp only [handleStatusUpdateChanged, addClientLog, countSJ_append, usic_sj_count]
  simp [countStatusJson]

theorem hsuc_mem (cid : String) (newStatus tsField : JVal) (serverTs : String)
    (changes : List (String × JVal)) (st : ServerState) :
    Event.statusUpdateJson cid newStatus changes
      (if jsTruthy tsField then tsField else .str serverTs) serverTs ∈
      (handleStatusUpdateChanged cid newStatus tsField serverTs changes st).2 := by
  simp only [handleStatusUpdateChanged, addClientLog]
  simp

/-! ## C6: diff suppression -/

/-- C6: delivering the same (wf) status object twice in a state whose
diff against the current cache is non-empty broadcasts exactly one
`status_update_json` event; the second delivery broadcasts none, only
appends the local "no changes" log line, and changes nothing in the
state besides the client's log ring. -/
theorem c6_diff_suppression (cid : String) (kvs : List (String × JVal)) (tsField : JVal)
    (serverTs serverTs2 : String) (st : ServerState)
    (hwf : wfJ (.obj kvs) = true)
    (hsome : (getChangedFields (jsOrEmpty ((st.clientStateCache cid).getD .undefined))
      (.obj kvs)).isSome = true) :
    countStatusJson cid ((handleStatusUpdate cid (.obj kvs) tsField serverTs st).2 ++
        (handleStatusUpdate cid (.obj kvs) tsField serverTs2
          (handleStatusUpdate cid (.obj kvs) tsField serverTs st).1).2) = 1 ∧
    (handleStatusUpdate cid (.obj kvs) tsField serverTs2
      (handleStatusUpdate cid (.obj kvs) tsField serverTs st).1).2 =
      [Event.log cid "[Status update - no changes detected]"] ∧
    (handleStatusUpdate cid (.obj kvs) tsField serverTs2
      (handleStatusUpdate cid (.obj kvs) tsField serverTs st).1).1 =
      { (handleStatusUpdate cid (.obj kvs) tsField serverTs st).1 with
        clientLogs := (handleStatusUpdate cid (.obj kvs) tsField serverTs2
          (handleStatusUpdate cid (.obj kvs) tsField serverTs st).1).1.clientLogs } := by
  obtain ⟨changes, hch⟩ := Option.isSome_iff_exists.mp hsome
  have htr : jsTruthy (JVal.obj kvs) = true := rfl
  have h1 := handleStatusUpdate_some cid (.obj kvs) tsField serverTs st changes htr hch
  have hcache1 : (handleStatusUpdate cid (.obj kvs) tsField serverTs st).1.clientStateCache cid =
      some (.obj kvs) := by
    rw [h1]
    exact hsuc_cache cid (.obj kvs) tsField serverTs changes st
  have hch2 : getChangedFields (jsOrEmpty
      (((handleStatusUpdate cid (.obj kvs) tsField serverTs st).1.clientStateCache cid).getD
        .undefined)) (.obj kvs) = none := by
    rw [hcache1]
    show getChangedFields (.obj kvs) (.obj kvs) = none
    exact getChangedFields_self kvs hwf
  have h2 := handleStatusUpdate_none cid (.obj kvs) tsField serverTs2 _ htr hch2
  refine ⟨?_, ?_, ?_⟩
  · rw [countSJ_append, h2, h1, hsuc_count]
    rfl
  · rw [h2]
    rfl
  · rw [h2]
    rfl

/-- Closed witness for `c6_diff_suppression` on the cached fixture. -/
theorem c6_diff_suppression_witness :
    wfJ (.obj newKvs) = true ∧
    (getChangedFields (jsOrEmpty ((stCached.clientStateCache cid0).getD .undefined))
      (.obj newKvs)).isSome = true ∧
    countStatusJson cid0 ((handleStatusUpdate cid0 (.obj newKvs) .null "T1" stCached).2 ++
        (handleStatusUpdate cid0 (.obj newKvs) .null "T2"
          (handleStatusUpdate cid0 (.obj newKvs) .null "T1" stCached).1).2) = 1 ∧
    (handleStatusUpdate cid0 (.obj newKvs) .null "T2"
      (handleStatusUpdate cid0 (.obj newKvs) .null "T1" stCached).1).2 =
      [Event.log cid0 "[Status update - no changes detected]"] := by
  have h := c6_diff_suppression cid0 newKvs .null "T1" "T2" stCached (by decide) (by decide)
  exact ⟨by decide, by decide, h.1, h.2.1⟩

/-! ## C7: diff completeness -/

theorem lookupKV_map_pair (f : String → JVal) :
    ∀ (keys : List String) (k : String), k ∈ keys →
      lookupKV (keys.map (fun k' => (k', f k'))) k = f k := by
  intro keys
  induction keys with
  | nil => intro k h; simp at h
  | cons x rest ih =>
    intro k hk
    rw [List.map_cons, lookupKV]
    by_cases hx : x = k
    · subst hx
      rw [if_pos rfl]
    · rw [if_neg hx]
      rcases List.mem_cons.mp hk with rfl | hk
      · exact absurd rfl hx
      · exact ih k hk

/-- C7: when the cached and incoming status objects differ on exactly
two of the four well-known fields and deep-agree on every other key of
their union, `getChangedFields` returns a `changes` object whose keys
are exactly those two, each mapped to its new value; the cache is
replaced by the incoming object; and the broadcast `status_update_json`
event carries that `changes` object. -/
theorem c7_diff_completeness (cid : String) (okvs nkvs : List (String × JVal))
    (k1 k2 : String) (tsField : JVal) (serverTs : String) (st : ServerState)
    (hcache : st.clientStateCache cid = some (.obj okvs))
    (hk1 : k1 ∈ ["loaded", "logged", "scriptRunning", "loadedScript"])
    (hk2 : k2 ∈ ["loaded", "logged", "scriptRunning", "loadedScript"])
    (hne : k1 ≠ k2)
    (hd1 : deepCompare (lookupKV okvs k1) (lookupKV nkvs k1) = false)
    (hd2 : deepCompare (lookupKV okvs k2) (lookupKV nkvs k2) = false)
    (hrest : ∀ k, k ∈ okvs.map Prod.fst ++ nkvs.map Prod.fst → k ≠ k1 → k ≠ k2 →
      deepCompare (lookupKV okvs k) (lookupKV nkvs k) = true) :
    ∃ changes,
      getChangedFields (.obj okvs) (.obj nkvs) = some changes ∧
      (∀ k, k ∈ changes.map Prod.fst ↔ (k = k1 ∨ k = k2)) ∧
      lookupKV changes k1 = lookupKV nkvs k1 ∧
      lookupKV changes k2 = lookupKV nkvs k2 ∧
      (handleStatusUpdate cid (.obj nkvs) tsField serverTs st).1.clientStateCache cid =
        some (.obj nkvs) ∧
      Event.statusUpdateJson cid (.obj nkvs) changes
        (if jsTruthy tsField then tsField else .str serverTs) serverTs ∈
        (handleStatusUpdate cid (.obj nkvs) tsField serverTs st).2 := by
  have hmem1 : k1 ∈ okvs.map Prod.fst ++ nkvs.map Prod.fst := by
    by_contra hcon
    simp only [List.mem_append, not_or] at hcon
    rw [lookupKV_eq_undef_of_not_mem hcon.1, lookupKV_eq_undef_of_not_mem hcon.2] at hd1
    simp [show deepCompare .undefined .undefined = true from rfl] at hd1
  have hmem2 : k2 ∈ okvs.map Prod.fst ++ nkvs.map Prod.fst := by
    by_contra hcon
    simp only [List.mem_append, not_or] at hcon
    rw [lookupKV_eq_undef_of_not_mem hcon.1, lookupKV_eq_undef_of_not_mem hcon.2] at hd2
    simp [show deepCompare .undefined .undefined = true from rfl] at hd2
  have hck1 : k1 ∈ (dedupFirst (okvs.map Prod.fst ++ nkvs.map Prod.fst)).filter
      (fun k => !(deepCompare (lookupKV okvs k) (lookupKV nkvs k))) :=
    List.mem_filter.mpr ⟨(mem_dedupFirst _ _).mpr hmem1, by simp [hd1]⟩
  have hck2 : k2 ∈ (dedupFirst (okvs.map Prod.fst ++ nkvs.map Prod.fst)).filter
      (fun k => !(deepCompare (lookupKV okvs k) (lookupKV nkvs k))) :=
    List.mem_filter.mpr ⟨(mem_dedupFirst _ _).mpr hmem2, by simp [hd2]⟩
  have hckiff : ∀ k, k ∈ (dedupFirst (okvs.map Prod.fst ++ nkvs.map Prod.fst)).filter
      (fun k => !(deepCompare (lookupKV okvs k) (lookupKV nkvs k))) ↔ (k = k1 ∨ k = k2) := by
    intro k
    constructor
    · intro hk
      obtain ⟨hka, hkp⟩ := List.mem_filter.mp hk
      by_contra hcon
      push_neg at hcon
      have := hrest k ((mem_dedupFirst _ _).mp hka) hcon.1 hcon.2
      rw [this] at hkp
      simp at hkp
    · rintro (rfl | rfl)
      · exact hck1
      · exact hck2
  have hgc : getChangedFields (.obj okvs) (.obj nkvs) =
      some (((dedupFirst (okvs.map Prod.fst ++ nkvs.map Prod.fst)).filter
        (fun k => !(deepCompare (lookupKV okvs k) (lookupKV nkvs k)))).map
        (fun k => (k, lookupKV nkvs k))) := by
    rw [getChangedFields_obj, if_pos]
    rw [List.length_map]
    exact List.length_pos.mpr (List.ne_nil_of_mem hck1)
  have hch : getChangedFields (jsOrEmpty ((st.clientStateCache cid).getD .undefined)) (.obj nkvs) =
      some (((dedupFirst (okvs.map Prod.fst ++ nkvs.map Prod.fst)).filter
        (fun k => !(deepCompare (lookupKV okvs k) (lookupKV nkvs k)))).map
        (fun k => (k, lookupKV nkvs k))) := by
    rw [hcache]
    exact hgc
  have hupd := handleStatusUpdate_some cid (.obj nkvs) tsField serverTs st _ rfl hch
  refine ⟨_, hgc, ?_, ?_, ?_, ?_, ?_⟩
  · intro k
    rw [show (((dedupFirst (okvs.map Prod.fst ++ nkvs.map Prod.fst)).filter
        (fun k => !(deepCompare (lookupKV okvs k) (lookupKV nkvs k)))).map
        (fun k => (k, lookupKV nkvs k))).map Prod.fst =
        (dedupFirst (okvs.map Prod.fst ++ nkvs.map Prod.fst)).filter
          (fun k => !(deepCompare (lookupKV okvs k) (lookupKV nkvs k)))
      from by
        rw [List.map_map,
          show (Prod.fst ∘ fun k => (k, lookupKV nkvs k)) = fun k => k from rfl,
          List.map_id']]
    exact hckiff k
  · exact lookupKV_map_pair _ _ _ hck1
  · exact lookupKV_map_pair _ _ _ hck2
  · rw [hupd]
    exact hsuc_cache cid (.obj nkvs) tsField serverTs _ st
  · rw [hupd]
    exact hsuc_mem cid (.obj nkvs) tsField serverTs _ st

/-- Closed witness for `c7_diff_completeness`: `loaded` and
`loadedScript` change between the default and new fixtures. -/
theorem c7_diff_completeness_witness :
    stCached.clientStateCache cid0 = some (.obj defKvs) ∧
    deepCompare (lookupKV defKvs "loaded") (lookupKV newKvs "loaded") = false ∧
    deepCompare (lookupKV defKvs "loadedScript") (lookupKV newKvs "loadedScript") = false ∧
    (∀ k, k ∈ defKvs.map Prod.fst ++ newKvs.map Prod.fst → k ≠ "loaded" → k ≠ "loadedScript" →
      deepCompare (lookupKV defKvs k) (lookupKV newKvs k) = true) ∧
    ∃ changes,
      getChangedFields (.obj defKvs) (.obj newKvs) = some changes ∧
      (∀ k, k ∈ changes.map Prod.fst ↔ (k = "loaded" ∨ k = "loadedScript")) ∧
      lookupKV changes "loaded" = lookupKV newKvs "loaded" ∧
      lookupKV changes "loadedScript" = lookupKV newKvs "loadedScript" ∧
      (handleStatusUpdate cid0 (.obj newKvs) .null "T1" stCached).1.clientStateCache cid0 =
        some (.obj newKvs) ∧
      Event.statusUpdateJson cid0 (.obj newKvs) changes
        (if jsTruthy JVal.null then JVal.null else .str "T1") "T1" ∈
        (handleStatusUpdate cid0 (.obj newKvs) .null "T1" stCached).2 := by
  refine ⟨rfl, by decide, by decide, by decide, ?_⟩
  exact c7_diff_completeness cid0 defKvs newKvs "loaded" "loadedScript" .null "T1" stCached
    rfl (by decide) (by decide) (by decide) (by decide) (by decide) (by decide)

end AQW
